import Mathlib

/-!
# A verification development for the `todo` note service

Shallow embedding of the authentication / authorization pipeline
(`pkg/auth`, `internal/middleware`), the note handlers
(`internal/handlers/notes`), the registration handler
(`internal/handlers/users`), the PostgreSQL store
(`internal/storage/postgres`) and the routing table of `cmd/todo/main.go`.

Conventions of the embedding

* Go `string` is Lean `String`; Go `int` is `Int`, with the 64-bit range made
  explicit where `strconv.Atoi` checks it.
* A Go `error` is a `GoError`: its message and the sentinels that
  `errors.Is` finds in its chain.  A Go result `(v, err)` is a pair whose
  second component is `Option GoError` (`none` is `nil`).
* An `http.Handler` is a function from the request to an `Outcome`: the
  status the handler wrote with `WriteHeader`, the body it rendered and the
  calls it made to its collaborators, in order.
* Time instants and durations are `Int` nanoseconds.
-/

namespace Todo

/-! ## Errors -/

deriving instance DecidableEq for Except

/-- The sentinel error values that the program compares against with
`errors.Is`, from the repository (`auth`, `storage`) and from its libraries. -/
inductive Sentinel
  | ErrSubEmpty            -- auth.ErrSubEmpty
  | ErrSecretEmpty         -- auth.ErrSecretEmpty
  | ErrUserExist           -- storage.ErrUserExist
  | ErrUserNoNotes         -- storage.ErrUserNoNotes
  | ErrNoNotes             -- storage.ErrNoNotes
  | ErrNoRows              -- pgx.ErrNoRows
  | Canceled               -- context.Canceled
  | DeadlineExceeded       -- context.DeadlineExceeded
  | ErrSyntax              -- strconv.ErrSyntax
  | ErrRange               -- strconv.ErrRange
  | ErrTokenMalformed      -- jwt.ErrTokenMalformed
  | ErrTokenUnverifiable   -- jwt.ErrTokenUnverifiable
  | ErrTokenSignatureInvalid -- jwt.ErrTokenSignatureInvalid
  | ErrTokenInvalidClaims  -- jwt.ErrTokenInvalidClaims
  | ErrTokenExpired        -- jwt.ErrTokenExpired
  | ErrTokenNotValidYet    -- jwt.ErrTokenNotValidYet
  | ErrInvalidType         -- jwt.ErrInvalidType
  | ErrSignatureInvalid    -- jwt.ErrSignatureInvalid
  deriving DecidableEq, Repr

/-- A Go error value: the text of `Error()`, the sentinels reachable through
`Unwrap`, and the SQLSTATE code when a `*pgconn.PgError` is in the chain. -/
structure GoError where
  msg : String
  chain : List Sentinel
  pgCode : Option String
  deriving DecidableEq, Repr

/-- The value `errors.New(msg)` bound to the sentinel `s`. -/
def errorsNew (s : Sentinel) (msg : String) : GoError :=
  { msg := msg, chain := [s], pgCode := none }

/-- The call `errors.Is(err, target)` for a sentinel target; `nil` matches
no sentinel. -/
def errorsIs (err : Option GoError) (target : Sentinel) : Bool :=
  match err with
  | none => false
  | some e => decide (target ∈ e.chain)

/-- The call `fmt.Errorf("%s: %w", op, err)`: the message is prefixed and the
chain of `err` is kept. -/
def wrapOp (op : String) (err : GoError) : GoError :=
  { msg := op ++ ": " ++ err.msg, chain := err.chain, pgCode := err.pgCode }

def auth_ErrSubEmpty : GoError := errorsNew .ErrSubEmpty "subject is empty"
def auth_ErrSecretEmpty : GoError := errorsNew .ErrSecretEmpty "secret is empty"
def storage_ErrUserExist : GoError :=
  errorsNew .ErrUserExist "user with this id already exists"
def storage_ErrUserNoNotes : GoError :=
  errorsNew .ErrUserNoNotes "no notes with this user_id and query parameters"
def storage_ErrNoNotes : GoError := errorsNew .ErrNoNotes "no notes with this id"

/-! ## `strconv`, `strings` -/

/-- Value of a decimal digit character, `none` for any other character. -/
def digitVal (c : Char) : Option Nat :=
  if '0' ≤ c ∧ c ≤ '9' then some (c.toNat - '0'.toNat) else none

/-- Value of a string of decimal digits read left to right, starting from the
accumulator `acc`; `none` when a character is not a digit. -/
def parseDigits : Nat → List Char → Option Nat
  | acc, [] => some acc
  | acc, c :: cs =>
    match digitVal c with
    | none => none
    | some d => parseDigits (acc * 10 + d) cs

/-- Smallest and largest value of a Go `int` on a 64-bit platform. -/
def minInt : Int := -(2 ^ 63)
def maxInt : Int := 2 ^ 63 - 1

/-- The `*strconv.NumError` values of `Atoi`; the message quotes the input. -/
def errSyntax (s : String) : GoError :=
  { msg := "strconv.Atoi: parsing \"" ++ s ++ "\": invalid syntax",
    chain := [.ErrSyntax], pgCode := none }

def errRange (s : String) : GoError :=
  { msg := "strconv.Atoi: parsing \"" ++ s ++ "\": value out of range",
    chain := [.ErrRange], pgCode := none }

/-- The body of `strconv.Atoi` after the sign has been read: `neg` says whether
the sign was `-`, `ds` are the remaining characters. -/
def atoiDigits (s : String) (neg : Bool) (ds : List Char) : Except GoError Int :=
  match ds with
  | [] => .error (errSyntax s)
  | _ =>
    match parseDigits 0 ds with
    | none => .error (errSyntax s)
    | some n =>
      if neg then
        if (n : Int) ≤ 2 ^ 63 then .ok (-(n : Int)) else .error (errRange s)
      else
        if (n : Int) ≤ maxInt then .ok (n : Int) else .error (errRange s)

/-- The function `strconv.Atoi`: an optional sign followed by one or more
decimal digits, within the range of `int`.  (For a string that is both
malformed and too long the library may report the range error; here it is the
syntax error.  The program only tests these errors against `nil`.) -/
def Atoi (s : String) : Except GoError Int :=
  match s.data with
  | [] => .error (errSyntax s)
  | '-' :: ds => atoiDigits s true ds
  | '+' :: ds => atoiDigits s false ds
  | ds => atoiDigits s false ds

/-- Decimal digits of a natural number, most significant first, appended in
front of `acc`; `fuel` bounds the number of digits. -/
def digitsAux : Nat → Nat → List Char → List Char
  | 0, _, acc => acc
  | fuel + 1, n, acc =>
    let acc := Char.ofNat ('0'.toNat + n % 10) :: acc
    if n / 10 = 0 then acc else digitsAux fuel (n / 10) acc

/-- Decimal digits of a natural number, most significant first. -/
def natDigits (n : Nat) : List Char := digitsAux (n + 1) n []

/-- The function `strconv.Itoa`. -/
def Itoa (i : Int) : String :=
  if i < 0 then String.mk ('-' :: natDigits i.natAbs) else String.mk (natDigits i.natAbs)

/-- The pieces of a character sequence between occurrences of `sep`. -/
def splitChars (sep : Char) : List Char → List (List Char)
  | [] => [[]]
  | c :: cs =>
    if c = sep then [] :: splitChars sep cs
    else
      match splitChars sep cs with
      | [] => [[c]]
      | p :: ps => (c :: p) :: ps

/-- The call `strings.Split(s, sep)` for a one-character separator. -/
def Split (s : String) (sep : Char) : List String :=
  (splitChars sep s.data).map String.mk

/-- Lower-case mapping of `unicode.ToLower`: the ASCII letters are mapped here,
the runes outside ASCII by the library's case tables `table`. -/
def runeToLower (table : Char → Char) (c : Char) : Char :=
  if c.toNat < 128 then (if 'A' ≤ c ∧ c ≤ 'Z' then Char.ofNat (c.toNat + 32) else c)
  else table c

/-- The function `strings.ToLower`. -/
def ToLower (table : Char → Char) (s : String) : String :=
  String.mk (s.data.map (runeToLower table))

/-! ## Requests and responses -/

/-- The request body of `models.Request`. -/
structure NoteRequest where
  Title : String
  Content : String
  deriving DecidableEq, Repr

/-- The request body of `models.SaveUserRequest`. -/
structure SaveUserRequest where
  Username : String
  deriving DecidableEq, Repr

/-- The parts of an `*http.Request` that the program reads. -/
structure Request where
  /-- route parameters bound by the router (`chi.URLParam`) -/
  urlParams : List (String × String)
  /-- header fields (`r.Header`) -/
  header : List (String × String)
  /-- query parameters (`r.URL.Query()`) -/
  query : List (String × String)
  /-- result of `render.DecodeJSON(r.Body, &req)`; `none` when decoding fails -/
  body : Option NoteRequest
  /-- result of `render.DecodeJSON(r.Body, &req)` for a `models.SaveUserRequest`;
  `none` when decoding fails -/
  userBody : Option SaveUserRequest := none
  deriving DecidableEq, Repr

/-- First value bound to `key`, the empty string when there is none: the
behaviour shared by `chi.URLParam`, `Header.Get` and `url.Values.Get`. -/
def lookupOrEmpty (kvs : List (String × String)) (key : String) : String :=
  (kvs.lookup key).getD ""

def URLParam (r : Request) (key : String) : String := lookupOrEmpty r.urlParams key
def HeaderGet (r : Request) (key : String) : String := lookupOrEmpty r.header key
def QueryGet (r : Request) (key : String) : String := lookupOrEmpty r.query key

/-- A note as returned to the client, `models.Note`. -/
structure Note where
  ID : Int
  Title : String
  Content : String
  CreatedAt : Int
  UpdatedAt : Int
  deriving DecidableEq, Repr

/-- The JSON documents the handlers render. -/
inductive Body
  | response (status : String) (error : String)     -- models.Response
  | getNote (status : String) (note : Note)         -- models.GetNoteResponse
  | getNotes (status : String) (notes : List Note)  -- models.GetNotesResponse
  | saveNote (status : String) (id : Int)           -- models.SaveNoteResponse
  | saveUser (status : String) (id : Int) (jwt : String)  -- models.SaveUserResponse
  deriving DecidableEq, Repr

def StatusOK : String := "OK"
def StatusError : String := "Error"

/-- The function `response.Err`. -/
def respErr (msg : String) : Body := .response StatusError msg

/-- The function `response.OK`. -/
def respOK : Body := .response StatusOK ""

/-- A call made by a handler to one of its collaborators. -/
inductive Call
  | parseToken (token : String)
  | serveNext
  | saveNote (userID : Int) (title content : String)
  | getNotes (userID limit offset : Int) (sort : String)
  | getNote (noteID userID : Int)
  | updateNote (noteID userID : Int) (title content : String)
  | saveUser (username : String)
  | newAccessToken (userID : Int) (tokenTTL : Int)
  deriving DecidableEq, Repr

/-- What a handler did: the status passed to `WriteHeader` (`none` when the
handler never called it), the body rendered (`none` when nothing was written)
and the collaborator calls in order. -/
structure Outcome where
  status : Option Nat
  body : Option Body
  calls : List Call
  deriving DecidableEq, Repr

/-- Writes `WriteHeader(code)` followed by `render.JSON(w, r, resp.Err(msg))`. -/
def writeErr (code : Nat) (msg : String) (calls : List Call) : Outcome :=
  { status := some code, body := some (respErr msg), calls := calls }

/-! ## `middleware.Authorize` -/

/-- The middleware `Authorize(log, tokenParser)(next)`. -/
def Authorize (tokenParser : String → Int × Option GoError) (next : Request → Outcome)
    (r : Request) : Outcome :=
  match Atoi (URLParam r "id") with
  | .error _ => writeErr 400 "user id must be a number" []
  | .ok userID =>
    let authHeader := HeaderGet r "Authorization"
    let authHeaderSplit := Split authHeader ' '
    if authHeaderSplit.length ≠ 2 ∨ authHeaderSplit.head? ≠ some "Bearer" then
      writeErr 401 "invalid Authorization header value format" []
    else
      let token := authHeaderSplit.getD 1 ""
      if token = "" then
        writeErr 401 "bearer token is missing" []
      else
        let (sub, err) := tokenParser token
        if errorsIs err .ErrSubEmpty then
          writeErr 401 "invalid token" [.parseToken token]
        else if errorsIs err .ErrTokenExpired then
          writeErr 401 "token is expired" [.parseToken token]
        else if err ≠ none then
          writeErr 401 "invalid token" [.parseToken token]
        else if sub ≠ userID then
          writeErr 403 "you have no access to this user's notes" [.parseToken token]
        else
          let o := next r
          { o with calls := .parseToken token :: .serveNext :: o.calls }

/-! ## The `jwt` library (`github.com/golang-jwt/jwt/v5`)

The library is not part of the repository.  Its behaviour is embedded as far
as `pkg/auth` depends on it: the registry of signing methods, the decoded
form of a token, the order of the checks of `Parser.ParseWithClaims` and the
claim validation of `Validator.Validate`.  The base64url / JSON serialisation
and the MAC are parameters (`JwtLib`). -/

/-- The signing methods registered by the library. -/
inductive SigningMethod
  | HS256 | HS384 | HS512
  | RS256 | RS384 | RS512
  | PS256 | PS384 | PS512
  | ES256 | ES384 | ES512
  | EdDSA
  | none
  deriving DecidableEq, Repr

/-- The method `SigningMethod.Alg()`. -/
def SigningMethod.Alg : SigningMethod → String
  | .HS256 => "HS256" | .HS384 => "HS384" | .HS512 => "HS512"
  | .RS256 => "RS256" | .RS384 => "RS384" | .RS512 => "RS512"
  | .PS256 => "PS256" | .PS384 => "PS384" | .PS512 => "PS512"
  | .ES256 => "ES256" | .ES384 => "ES384" | .ES512 => "ES512"
  | .EdDSA => "EdDSA"
  | .none => "none"

def allSigningMethods : List SigningMethod :=
  [.HS256, .HS384, .HS512, .RS256, .RS384, .RS512, .PS256, .PS384, .PS512,
   .ES256, .ES384, .ES512, .EdDSA, .none]

/-- The function `jwt.GetSigningMethod`: the registered method of that name. -/
def GetSigningMethod (alg : String) : Option SigningMethod :=
  allSigningMethods.find? (fun m => m.Alg == alg)

/-- A claim read as a string by `MapClaims`: absent, a JSON string, or a value
of another JSON type. -/
inductive StringClaim
  | absent
  | str (s : String)
  | invalid
  deriving DecidableEq, Repr

/-- A claim read as a `NumericDate` by `MapClaims`: absent, a number (held in
whole seconds since the Unix epoch, the library's `TimePrecision`), or a value
of another JSON type. -/
inductive DateClaim
  | absent
  | date (seconds : Int)
  | invalid
  deriving DecidableEq, Repr

/-- The claims of a token that the program and the validator read. -/
structure Claims where
  sub : StringClaim
  exp : DateClaim
  nbf : DateClaim
  deriving DecidableEq, Repr

/-- A token whose three segments have been decoded: the `alg` header (`none`
when it is absent or not a string), the claims, and the signature. -/
structure Token where
  alg : Option String
  claims : Claims
  signature : List Nat
  deriving DecidableEq, Repr

/-- The parts of the library taken as parameters. -/
structure JwtLib where
  /-- serialisation of a token into `header.payload.signature` -/
  encode : Token → String
  /-- decoding of the three segments; `none` when the string is malformed -/
  decode : String → Option Token
  /-- HMAC-SHA256 of the signing input (header and claims) under a key -/
  hmacSHA256 : String → Option String → Claims → List Nat
  /-- signature verification of the methods other than HS256 -/
  verifyOther : SigningMethod → String → Option String → Claims → List Nat → Bool

def sentinelText : Sentinel → String
  | .ErrTokenMalformed => "token is malformed"
  | .ErrTokenUnverifiable => "token is unverifiable"
  | .ErrTokenSignatureInvalid => "token signature is invalid"
  | .ErrTokenInvalidClaims => "token has invalid claims"
  | .ErrTokenExpired => "token is expired"
  | .ErrTokenNotValidYet => "token is not valid yet"
  | .ErrInvalidType => "invalid type for claim"
  | .ErrSignatureInvalid => "signature is invalid"
  | _ => ""

/-- The library's `newError(message, err, more...)`: an error that wraps the
sentinel `err` and the errors `more`. -/
def newError (message : String) (err : Sentinel) (more : List GoError) : GoError :=
  { msg := sentinelText err ++ (if message = "" then "" else ": " ++ message) ++
      String.join (more.map (fun e => ": " ++ e.msg)),
    chain := err :: (more.map (fun e => e.chain)).flatten,
    pgCode := none }

/-- One second in nanoseconds. -/
def nanosPerSecond : Int := 1000000000

/-- The function `jwt.NewNumericDate`: the instant truncated to
`TimePrecision`, one second; the result is in whole seconds. -/
def NewNumericDate (t : Int) : Int := t / nanosPerSecond

/-- The check `Validator.verifyExpiresAt` (claim not required, no leeway):
the token is valid while `now` is before the expiry. -/
def verifyExpiresAt (c : Claims) (now : Int) : Option GoError :=
  match c.exp with
  | .invalid => some (newError "exp is invalid" .ErrInvalidType [])
  | .absent => none
  | .date s => if now < s * nanosPerSecond then none else some (newError "" .ErrTokenExpired [])

/-- The check `Validator.verifyNotBefore` (claim not required, no leeway). -/
def verifyNotBefore (c : Claims) (now : Int) : Option GoError :=
  match c.nbf with
  | .invalid => some (newError "nbf is invalid" .ErrInvalidType [])
  | .absent => none
  | .date s => if now < s * nanosPerSecond then some (newError "" .ErrTokenNotValidYet []) else none

/-- The method `Validator.Validate` of a default validator: the expiry and the
not-before checks, their errors joined by `errors.Join`. -/
def Validate (c : Claims) (now : Int) : Option GoError :=
  let errs := (verifyExpiresAt c now).toList ++ (verifyNotBefore c now).toList
  match errs with
  | [] => none
  | _ => some { msg := String.intercalate "\n" (errs.map (fun e => e.msg)),
                chain := (errs.map (fun e => e.chain)).flatten, pgCode := none }

/-- The method `SigningMethod.Verify` with a `[]byte` key. -/
def methodVerify (lib : JwtLib) (m : SigningMethod) (key : String) (t : Token) : Bool :=
  match m with
  | .HS256 => decide (t.signature = lib.hmacSHA256 key t.alg t.claims)
  | m => lib.verifyOther m key t.alg t.claims t.signature

/-- The function `jwt.Parse(tokenString, keyFunc, jwt.WithValidMethods(validMethods))`
evaluated at the clock instant `now`. -/
def jwtParse (lib : JwtLib) (validMethods : List String)
    (keyFunc : SigningMethod → String → Except GoError String) (now : Int)
    (tokenString : String) : Except GoError Token :=
  match lib.decode tokenString with
  | none => .error (newError "" .ErrTokenMalformed [])
  | some t =>
    match t.alg with
    | none => .error (newError "signing method (alg) is unspecified" .ErrTokenUnverifiable [])
    | some alg =>
      match GetSigningMethod alg with
      | none => .error (newError "signing method (alg) is unavailable" .ErrTokenUnverifiable [])
      | some method =>
        if method.Alg ∉ validMethods then
          .error (newError ("signing method " ++ method.Alg ++ " is invalid")
            .ErrTokenSignatureInvalid [])
        else
          match keyFunc method alg with
          | .error e => .error (newError "error while executing keyfunc" .ErrTokenUnverifiable [e])
          | .ok key =>
            if ¬ methodVerify lib method key t then
              .error (newError "" .ErrTokenSignatureInvalid
                [errorsNew .ErrSignatureInvalid (sentinelText .ErrSignatureInvalid)])
            else
              match Validate t.claims now with
              | some e => .error (newError "" .ErrTokenInvalidClaims [e])
              | none => .ok t

/-! ## `auth.Manager` -/

/-- The constant `alg`. -/
def alg : String := "HS256"

/-- The type `auth.Manager`. -/
structure Manager where
  jwtSecret : String
  deriving DecidableEq, Repr

/-- The function `auth.NewManager`, given the value of the environment
variable `JWT_SECRET`. -/
def NewManager (jwtSecret : String) : Except GoError Manager :=
  if jwtSecret = "" then .error (wrapOp "auth.NewManager" auth_ErrSecretEmpty)
  else .ok { jwtSecret := jwtSecret }

/-- A string field marshalled with `omitempty`. -/
def omitEmpty (s : String) : StringClaim := if s = "" then .absent else .str s

/-- The token built by `jwt.NewWithClaims(jwt.SigningMethodHS256, ...)` in
`GenerateAccessToken` and signed with the manager's secret; `now` is the value
of `time.Now()`, `tokenTTL` a duration in nanoseconds. -/
def generatedJWT (lib : JwtLib) (m : Manager) (now : Int) (userID : Int)
    (tokenTTL : Int) : Token :=
  let claims : Claims :=
    { sub := omitEmpty (Itoa userID),
      exp := .date (NewNumericDate (now + tokenTTL)),
      nbf := .absent }
  { alg := some SigningMethod.HS256.Alg, claims := claims,
    signature := lib.hmacSHA256 m.jwtSecret (some SigningMethod.HS256.Alg) claims }

/-- The method `Manager.GenerateAccessToken`, evaluated at the clock instant
`now`: the serialisation of the signed token (signing with a byte-slice key
under HS256 does not fail). -/
def GenerateAccessToken (lib : JwtLib) (m : Manager) (now : Int) (userID : Int)
    (tokenTTL : Int) : String × Option GoError :=
  (lib.encode (generatedJWT lib m now userID tokenTTL), none)

/-- The key-selection callback that `ParseToken` hands to `jwt.Parse`: the
secret for a token whose method is HS256, an error for any other method. -/
def keyFunc (m : Manager) (method : SigningMethod) (headerAlg : String) :
    Except GoError String :=
  if method ≠ .HS256 then
    .error { msg := "unexpected alg type: " ++ headerAlg, chain := [], pgCode := none }
  else .ok m.jwtSecret

/-- The method `MapClaims.GetSubject`. -/
def GetSubject (c : Claims) : Except GoError String :=
  match c.sub with
  | .absent => .ok ""
  | .str s => .ok s
  | .invalid => .error (newError "sub is invalid" .ErrInvalidType [])

/-- The method `Manager.ParseToken`, evaluated at the clock instant `now`. -/
def ParseToken (lib : JwtLib) (m : Manager) (now : Int) (receivedJWT : String) :
    Int × Option GoError :=
  match jwtParse lib [alg] (keyFunc m) now receivedJWT with
  | .error err => (0, some (wrapOp "auth.ParseToken" err))
  | .ok parsedJWT =>
    match GetSubject parsedJWT.claims with
    | .error err => (0, some (wrapOp "auth.ParseToken" err))
    | .ok sub =>
      if sub = "" then (0, some (wrapOp "auth.ParseToken" auth_ErrSubEmpty))
      else
        match Atoi sub with
        | .error err => (0, some (wrapOp "auth.ParseToken" err))
        | .ok userID => (userID, none)

/-! ## The note handlers (`internal/handlers/notes`) -/

/-- The struct validation `validator.New().Struct(req)` of `models.Request`,
whose only rule is `required` on `Title`: the names of the fields that fail.
(The handlers' branch for an error that is not a `ValidationErrors` cannot be
taken for a struct argument.) -/
def validateRequest (req : NoteRequest) : List String :=
  if req.Title = "" then ["Title"] else []

/-- The function `response.ValidationErrorsResponse` for errors of the tag
`required`. -/
def ValidationErrorsResponse (fields : List String) : Body :=
  respErr (String.intercalate ", " (fields.map (fun f => f ++ " is a required field")))

/-- The handler returned by `NewGetNotesHandler(log, notesGetter)`;
`lowerTable` is the case table of `strings.ToLower` outside ASCII. -/
def NewGetNotesHandler (lowerTable : Char → Char)
    (notesGetter : Int → Int → Int → String → List Note × List Int × Option GoError)
    (r : Request) : Outcome :=
  match Atoi (URLParam r "id") with
  | .error _ => writeErr 400 "user id must be a number" []
  | .ok userID =>
    match (if QueryGet r "limit" ≠ "" then Atoi (QueryGet r "limit") else .ok 10) with
    | .error _ => writeErr 400 "limit must be a number" []
    | .ok resLimit =>
      match (if QueryGet r "offset" ≠ "" then Atoi (QueryGet r "offset") else .ok 0) with
      | .error _ => writeErr 400 "offset must be a number" []
      | .ok resOffset =>
        let resSort := if QueryGet r "sort" ≠ "" then QueryGet r "sort" else "ASC"
        let switched : Option String :=
          if ToLower lowerTable resSort = "asc" then some "ASC"
          else if ToLower lowerTable resSort = "desc" then some "DESC"
          else none
        match switched with
        | none => writeErr 400 "sort must be either \"asc\" or \"desc\"" []
        | some resSort =>
          let (notes, _ids, err) := notesGetter userID resLimit resOffset resSort
          let calls := [Call.getNotes userID resLimit resOffset resSort]
          if errorsIs err .Canceled then
            { status := none, body := none, calls := calls }
          else if errorsIs err .DeadlineExceeded then
            writeErr 504 "request took too long to process, try again later" calls
          else if errorsIs err .ErrUserNoNotes then
            writeErr 404 "user have no notes or offset is too big" calls
          else if err ≠ none then
            writeErr 500 "internal error" calls
          else
            { status := none, body := some (.getNotes StatusOK notes), calls := calls }

/-- The handler returned by `NewGetNoteHandler(log, noteGetter)`. -/
def NewGetNoteHandler (noteGetter : Int → Int → Note × Int × Option GoError)
    (r : Request) : Outcome :=
  match Atoi (URLParam r "id") with
  | .error _ => writeErr 400 "user id must be a number" []
  | .ok userID =>
    match Atoi (URLParam r "note_id") with
    | .error _ => writeErr 400 "note id must be a number" []
    | .ok noteID =>
      let (note, _id, err) := noteGetter noteID userID
      let calls := [Call.getNote noteID userID]
      if errorsIs err .Canceled then
        { status := none, body := none, calls := calls }
      else if errorsIs err .DeadlineExceeded then
        writeErr 504 "request took too long to process, try again later" calls
      else if errorsIs err .ErrNoNotes then
        writeErr 404 "no notes with this id" calls
      else if err ≠ none then
        writeErr 500 "internal error" calls
      else
        { status := none, body := some (.getNote StatusOK note), calls := calls }

/-- The handler returned by `NewSaveNoteHandler(log, noteSaver)`. -/
def NewSaveNoteHandler (noteSaver : Int → String → String → Int × Option GoError)
    (r : Request) : Outcome :=
  match Atoi (URLParam r "id") with
  | .error _ => writeErr 400 "user id must be a number" []
  | .ok userID =>
    match r.body with
    | none => writeErr 400 "invalid request" []
    | some req =>
      if validateRequest req ≠ [] then
        { status := some 400, body := some (ValidationErrorsResponse (validateRequest req)),
          calls := [] }
      else
        let (id, err) := noteSaver userID req.Title req.Content
        let calls := [Call.saveNote userID req.Title req.Content]
        if errorsIs err .Canceled then
          { status := none, body := none, calls := calls }
        else if errorsIs err .DeadlineExceeded then
          writeErr 504 "request took too long to process, try again later" calls
        else if err ≠ none then
          writeErr 500 "internal error" calls
        else
          { status := some 201, body := some (.saveNote StatusOK id), calls := calls }

/-- The handler returned by `NewUpdateNoteHandler(log, noteUpdater)`. -/
def NewUpdateNoteHandler (noteUpdater : Int → Int → String → String → Int × Option GoError)
    (r : Request) : Outcome :=
  match Atoi (URLParam r "id") with
  | .error _ => writeErr 400 "user id must be a number" []
  | .ok userID =>
    match Atoi (URLParam r "note_id") with
    | .error _ => writeErr 400 "note id must be a number" []
    | .ok noteID =>
      match r.body with
      | none => writeErr 400 "invalid request" []
      | some req =>
        if validateRequest req ≠ [] then
          { status := some 400, body := some (ValidationErrorsResponse (validateRequest req)),
            calls := [] }
        else
          let (_id, err) := noteUpdater noteID userID req.Title req.Content
          let calls := [Call.updateNote noteID userID req.Title req.Content]
          if errorsIs err .Canceled then
            { status := none, body := none, calls := calls }
          else if errorsIs err .DeadlineExceeded then
            writeErr 504 "request took too long to process, try again later" calls
          else if errorsIs err .ErrNoNotes then
            writeErr 404 "no notes with this id" calls
          else if err ≠ none then
            writeErr 500 "internal error" calls
          else
            { status := some 201, body := some respOK, calls := calls }

/-! ## The registration handler (`internal/handlers/users`) -/

/-- The struct validation `validator.New().Struct(req)` of
`models.SaveUserRequest`, whose only rule is `required` on `Username`: the
names of the fields that fail. -/
def validateSaveUserRequest (req : SaveUserRequest) : List String :=
  if req.Username = "" then ["Username"] else []

/-- The handler returned by
`NewSaveUserHandler(log, userSaver, accessTokenGenerator, jwtTTL)`. -/
def NewSaveUserHandler (userSaver : String → Int × Option GoError)
    (accessTokenGenerator : Int → Int → String × Option GoError) (jwtTTL : Int)
    (r : Request) : Outcome :=
  match r.userBody with
  | none => writeErr 400 "invalid request" []
  | some req =>
    if validateSaveUserRequest req ≠ [] then
      { status := some 400,
        body := some (ValidationErrorsResponse (validateSaveUserRequest req)), calls := [] }
    else
      let (id, err) := userSaver req.Username
      let calls := [Call.saveUser req.Username]
      if errorsIs err .Canceled then
        { status := none, body := none, calls := calls }
      else if errorsIs err .DeadlineExceeded then
        writeErr 504 "request took too long to process, try again later" calls
      else if errorsIs err .ErrUserExist then
        writeErr 409 "user with this username already exists" calls
      else if err ≠ none then
        writeErr 500 "internal error" calls
      else
        let (jwt, err) := accessTokenGenerator id jwtTTL
        let calls := calls ++ [Call.newAccessToken id jwtTTL]
        if err ≠ none then
          writeErr 500 "internal error" calls
        else
          { status := some 201, body := some (.saveUser StatusOK id jwt), calls := calls }

/-! ## The store (`internal/storage/postgres`) -/

/-- The constant `pgerrcode.UniqueViolation`. -/
def UniqueViolation : String := "23505"

/-- The method `Storage.SaveUser`, given the outcome of `QueryRow(..).Scan(&id)`
for the `INSERT INTO users ... RETURNING id` statement.  `errors.As(err, &pgErr)`
finds the `*pgconn.PgError` of the chain, whose code is `err.pgCode`. -/
def SaveUser (scan : Except GoError Int) : Int × Option GoError :=
  match scan with
  | .error err =>
    if err.pgCode = some UniqueViolation then
      (0, some (wrapOp "storage.postgres.SaveUser" storage_ErrUserExist))
    else (0, some (wrapOp "storage.postgres.SaveUser" err))
  | .ok id => (id, none)

/-- What `pool.Query` hands back when the query starts: for each row that
`rows.Next()` delivers the outcome of `rows.Scan`, and the error `rows.Err()`
that ended the iteration, if any. -/
structure Rows where
  scans : List (Except GoError Note)
  err : Option GoError

/-- The connection pool as seen by `GetNotes`: the statement text and its
arguments are answered by an error or by rows. -/
abbrev Pool := String → List Int → Except GoError Rows

/-- The values returned by `Storage.GetNotes` together with the statements it
handed to `pool.Query`. -/
structure GetNotesResult where
  notes : List Note
  ids : List Int
  err : Option GoError
  executed : List (String × List Int)
  deriving DecidableEq, Repr

/-- A call either returns, or ends in a run-time panic, or ends the process
with a fatal error of the run time. -/
inductive Ran (α : Type)
  | panicked (msg : String)
  | fatal (msg : String)
  | returned (result : α)
  deriving DecidableEq, Repr

/-- The run-time constant `maxAlloc` of a 64-bit platform (48 address bits):
`makeslice` panics when the bytes asked for exceed it. -/
def maxAlloc : Int := 2 ^ 48

/-- The size in bytes of a `models.Note` on a 64-bit platform: an `int64`, two
strings (16 each) and two `time.Time` (24 each). -/
def noteSize : Int := 88

/-- The size in bytes of an `int64`. -/
def int64Size : Int := 8

/-- The query text built by `fmt.Sprintf` in `Storage.GetNotes`. -/
def safeQuery (sort : String) : String :=
  "SELECT id, title, content, created_at, updated_at\n\t\tFROM notes\n\t\tWHERE user_id = $1\n\t\tORDER BY created_at " ++
    sort ++ "\n\t\tLIMIT $2\n\t\tOFFSET $3"

/-- The loop `for rows.Next()` of `Storage.GetNotes`: the notes scanned so far
are in `resNotes`; a failing `Scan` ends the call with its error. -/
def scanRows : List (Except GoError Note) → List Note → Except GoError (List Note)
  | [], resNotes => .ok resNotes
  | .error err :: _, _ => .error err
  | .ok note :: rest, resNotes => scanRows rest (resNotes ++ [note])

/-- The method `Storage.GetNotes`; `memory` is the number of bytes that the
run time can obtain from the system when the method is called.  The
allocations `make([]models.Note, 0, limit)` and `make([]int64, 0, limit)` come
before the query: `makeslice` panics for a capacity that is negative or whose
size in bytes exceeds `maxAlloc`, and an allocation that the system cannot
serve ends the process. -/
def GetNotes (memory : Int) (pool : Pool) (userID limit offset : Int) (sort : String) :
    Ran GetNotesResult :=
  if limit < 0 ∨ maxAlloc < limit * noteSize then
    .panicked "runtime error: makeslice: cap out of range"
  else if memory < limit * noteSize + limit * int64Size then
    .fatal "fatal error: runtime: out of memory"
  else
    let executed := [(safeQuery sort, [userID, limit, offset])]
    match pool (safeQuery sort) [userID, limit, offset] with
    | .error err =>
      .returned { notes := [], ids := [],
                  err := some (wrapOp "storage.postgres.GetNotes" err),
                  executed := executed }
    | .ok rows =>
      match scanRows rows.scans [] with
      | .error err =>
        .returned { notes := [], ids := [],
                    err := some (wrapOp "storage.postgres.GetNotes" err),
                    executed := executed }
      | .ok resNotes =>
        if resNotes.length = 0 then
          .returned { notes := [], ids := [],
                      err := some (wrapOp "storage.postgres.GetNotes" storage_ErrUserNoNotes),
                      executed := executed }
        else
          .returned { notes := resNotes, ids := resNotes.map (fun n => n.ID), err := none,
                      executed := executed }

/-- A row of the `notes` table. -/
structure NoteRow where
  id : Int
  userID : Int
  title : String
  content : String
  createdAt : Int
  updatedAt : Int
  deriving DecidableEq, Repr

/-- The columns `id, title, content, created_at, updated_at` of a row. -/
def NoteRow.toNote (row : NoteRow) : Note :=
  { ID := row.id, Title := row.title, Content := row.content,
    CreatedAt := row.createdAt, UpdatedAt := row.updatedAt }

/-- The zero value `models.Note{}`. -/
def zeroNote : Note := { ID := 0, Title := "", Content := "", CreatedAt := 0, UpdatedAt := 0 }

def pgx_ErrNoRows : GoError := errorsNew .ErrNoRows "no rows in result set"

/-- The condition `WHERE id = $1 AND user_id = $2`. -/
def rowMatches (noteID userID : Int) (row : NoteRow) : Bool :=
  decide (row.id = noteID) && decide (row.userID = userID)

/-- The statement of `GetNote` run on the table: `QueryRow(..).Scan(..)` yields
the first selected row, `pgx.ErrNoRows` when none is selected. -/
def selectNote (table : List NoteRow) (noteID userID : Int) : Except GoError Note :=
  match table.find? (rowMatches noteID userID) with
  | none => .error pgx_ErrNoRows
  | some row => .ok row.toNote

/-- The statement of `UpdateNote` run on the table: every selected row gets the
new title and content, the columns that `SET` does not name are left as they
are; the first returned id is scanned. -/
def updateNote (table : List NoteRow) (title content : String) (noteID userID : Int) :
    List NoteRow × Except GoError Int :=
  (table.map (fun row =>
      if rowMatches noteID userID row then { row with title := title, content := content }
      else row),
   match table.find? (rowMatches noteID userID) with
   | none => .error pgx_ErrNoRows
   | some row => .ok row.id)

/-- The statement of `DeleteNote` run on the table: every selected row is
removed; the first returned id is scanned. -/
def deleteNote (table : List NoteRow) (noteID userID : Int) :
    List NoteRow × Except GoError Int :=
  (table.filter (fun row => ! rowMatches noteID userID row),
   match table.find? (rowMatches noteID userID) with
   | none => .error pgx_ErrNoRows
   | some row => .ok row.id)

/-- The method `Storage.GetNote`, given the outcome of `QueryRow(..).Scan(..)`. -/
def GetNote (scan : Except GoError Note) : Note × Int × Option GoError :=
  match scan with
  | .error err =>
    if errorsIs (some err) .ErrNoRows then
      (zeroNote, 0, some (wrapOp "storage.postgres.GetNote" storage_ErrNoNotes))
    else (zeroNote, 0, some (wrapOp "storage.postgres.GetNote" err))
  | .ok note => (note, note.ID, none)

/-- The method `Storage.UpdateNote`, given the outcome of `QueryRow(..).Scan(..)`. -/
def UpdateNote (scan : Except GoError Int) : Int × Option GoError :=
  match scan with
  | .error err =>
    if errorsIs (some err) .ErrNoRows then
      (0, some (wrapOp "storage.postgres.UpdateNote" storage_ErrNoNotes))
    else (0, some (wrapOp "storage.postgres.UpdateNote" err))
  | .ok id => (id, none)

/-- The method `Storage.DeleteNote`, given the outcome of `QueryRow(..).Scan(..)`. -/
def DeleteNote (scan : Except GoError Int) : Int × Option GoError :=
  match scan with
  | .error err =>
    if errorsIs (some err) .ErrNoRows then
      (0, some (wrapOp "storage.postgres.DeleteNote" storage_ErrNoNotes))
    else (0, some (wrapOp "storage.postgres.DeleteNote" err))
  | .ok id => (id, none)

/-- The call `GetNote(ctx, noteID, userID)` against a database whose notes
table is `table`: the result and the table afterwards.  A `fault` (deadline,
cancellation, connection failure) is reported by the driver in place of
running the statement. -/
def GetNoteOn (fault : Option GoError) (table : List NoteRow) (noteID userID : Int) :
    (Note × Int × Option GoError) × List NoteRow :=
  match fault with
  | some err => (GetNote (.error err), table)
  | none => (GetNote (selectNote table noteID userID), table)

/-- The call `UpdateNote(ctx, noteID, userID, title, content)` against a
database whose notes table is `table`. -/
def UpdateNoteOn (fault : Option GoError) (table : List NoteRow) (noteID userID : Int)
    (title content : String) : (Int × Option GoError) × List NoteRow :=
  match fault with
  | some err => (UpdateNote (.error err), table)
  | none => (UpdateNote (updateNote table title content noteID userID).2,
             (updateNote table title content noteID userID).1)

/-- The call `DeleteNote(ctx, noteID, userID)` against a database whose notes
table is `table`. -/
def DeleteNoteOn (fault : Option GoError) (table : List NoteRow) (noteID userID : Int) :
    (Int × Option GoError) × List NoteRow :=
  match fault with
  | some err => (DeleteNote (.error err), table)
  | none => (DeleteNote (deleteNote table noteID userID).2,
             (deleteNote table noteID userID).1)

/-! ## The routing table (`cmd/todo/main.go`)

The router library (`github.com/go-chi/chi/v5`) is embedded as far as `main`
uses it: a mux has a middleware stack and routes; `Route` mounts a fresh mux
under a pattern, and a request dispatched to a route passes the stacks of the
muxes from the outermost inwards. -/

/-- The middlewares that `main` installs. -/
inductive Middleware
  | RequestID
  | Logger
  | Recoverer
  | Authorize
  deriving DecidableEq, Repr

/-- The handlers that `main` registers, by constructor. -/
inductive Endpoint
  | NewSaveUserHandler
  | NewSaveNoteHandler
  | NewGetNotesHandler
  | NewGetNoteHandler
  | NewUpdateNoteHandler
  | NewDeleteNoteHandler
  deriving DecidableEq, Repr

/-- A registered route: the method, the patterns from the outermost mount to
the route itself, the middlewares a request passes before the handler (those
of inner muxes only, until the table is read off the outermost mux), and the
handler. -/
structure RouteEntry where
  method : String
  patterns : List String
  stack : List Middleware
  endpoint : Endpoint
  deriving DecidableEq, Repr

/-- A `chi.Mux`. -/
structure Mux where
  middlewares : List Middleware
  routes : List RouteEntry
  deriving DecidableEq, Repr

/-- The function `chi.NewRouter`. -/
def NewRouter : Mux := { middlewares := [], routes := [] }

/-- The method `Mux.Use`. -/
def Mux.Use (mx : Mux) (middlewares : List Middleware) : Mux :=
  { mx with middlewares := mx.middlewares ++ middlewares }

/-- The registration of a handler for a method and a pattern, shared by
`Mux.Get`, `Mux.Post`, `Mux.Put` and `Mux.Delete`. -/
def Mux.Method (mx : Mux) (method pattern : String) (h : Endpoint) : Mux :=
  { mx with routes := mx.routes ++
      [{ method := method, patterns := [pattern], stack := [], endpoint := h }] }

def Mux.Get (mx : Mux) (pattern : String) (h : Endpoint) : Mux := mx.Method "GET" pattern h
def Mux.Post (mx : Mux) (pattern : String) (h : Endpoint) : Mux := mx.Method "POST" pattern h
def Mux.Put (mx : Mux) (pattern : String) (h : Endpoint) : Mux := mx.Method "PUT" pattern h
def Mux.Delete (mx : Mux) (pattern : String) (h : Endpoint) : Mux :=
  mx.Method "DELETE" pattern h

/-- The method `Mux.Route`: `fn` fills a fresh mux, which is mounted under
`pattern`. -/
def Mux.Route (mx : Mux) (pattern : String) (fn : Mux → Mux) : Mux :=
  { mx with routes := mx.routes ++
      (fn NewRouter).routes.map (fun e =>
        { e with patterns := pattern :: e.patterns,
                 stack := (fn NewRouter).middlewares ++ e.stack }) }

/-- The routes of a mux that serves requests, each with the full stack of
middlewares in front of its handler. -/
def Mux.table (mx : Mux) : List RouteEntry :=
  mx.routes.map (fun e => { e with stack := mx.middlewares ++ e.stack })

/-- The router built by `main`. -/
def router : Mux :=
  (((NewRouter.Use [.RequestID, .Logger, .Recoverer]).Post "/users" .NewSaveUserHandler).Route
      "/users/{id}/notes"
      (fun r => ((r.Use [.Authorize]).Post "/" .NewSaveNoteHandler).Get "/" .NewGetNotesHandler)).Route
    "/users/{id}/notes/{note_id}"
    (fun r => (((r.Use [.Authorize]).Get "/" .NewGetNoteHandler).Put "/"
        .NewUpdateNoteHandler).Delete "/" .NewDeleteNoteHandler)

/-! ## Notions used in the statements -/

/-- The header value has the shape `Bearer <token>`: the word `Bearer`, one
space, and a non-empty token that contains no space. -/
def WellFormedBearer (h tok : String) : Prop :=
  h = "Bearer " ++ tok ∧ tok ≠ "" ∧ ' ' ∉ tok.data

/-- The owner identity that a call hands to the note store; `none` for the
calls that are not store calls. -/
def Call.owner : Call → Option Int
  | .saveNote userID _ _ => some userID
  | .getNotes userID _ _ _ => some userID
  | .getNote _ userID => some userID
  | .updateNote _ userID _ _ => some userID
  | .parseToken _ => none
  | .serveNext => none
  | .saveUser _ => none
  | .newAccessToken _ _ => none

/-- The classes of store errors that the handlers tell apart. -/
inductive ErrClass
  | canceled
  | deadlineExceeded
  | notFound
  | unexpected
  deriving DecidableEq, Repr

/-- The class of a store error, in the order in which the handlers test it;
`notFound` is the handler's not-found sentinel. -/
def classify (notFound : Sentinel) (e : GoError) : ErrClass :=
  if .Canceled ∈ e.chain then .canceled
  else if .DeadlineExceeded ∈ e.chain then .deadlineExceeded
  else if notFound ∈ e.chain then .notFound
  else .unexpected

/-- The status and body that belong to an error class; `notFoundMsg` is the
handler's not-found message. -/
def classResponse (notFoundMsg : String) : ErrClass → Option Nat × Option Body
  | .canceled => (none, none)
  | .deadlineExceeded =>
    (some 504, some (respErr "request took too long to process, try again later"))
  | .notFound => (some 404, some (respErr notFoundMsg))
  | .unexpected => (some 500, some (respErr "internal error"))

/-- The error comes from the database driver: none of the repository's own
sentinels is in its chain. -/
def DriverError (e : GoError) : Prop :=
  Sentinel.ErrSubEmpty ∉ e.chain ∧ Sentinel.ErrSecretEmpty ∉ e.chain ∧
  Sentinel.ErrUserExist ∉ e.chain ∧ Sentinel.ErrUserNoNotes ∉ e.chain ∧
  Sentinel.ErrNoNotes ∉ e.chain

/-- The handlers of the note operations. -/
def Endpoint.isNoteHandler : Endpoint → Bool
  | .NewSaveUserHandler => false
  | _ => true

/-- The notes table is keyed by the note identifier. -/
def Keyed (table : List NoteRow) : Prop := (table.map (fun row => row.id)).Nodup

/-! ## Sample data -/

/-- A small serialisation `alg.sub.exp.sig` for tokens that carry a string
`alg`, a string `sub`, a numeric `exp` and no `nbf`. -/
def sampleEncode (t : Token) : String :=
  match t.alg, t.claims.sub, t.claims.exp with
  | some a, .str s, .date e =>
    a ++ "." ++ s ++ "." ++ Itoa e ++ "." ++ String.mk (t.signature.map Char.ofNat)
  | _, _, _ => ""

def sampleDecode (s : String) : Option Token :=
  match Split s '.' with
  | [a, sub, e, sig] =>
    match Atoi e with
    | .ok n =>
      some { alg := some a, claims := { sub := .str sub, exp := .date n, nbf := .absent },
             signature := sig.data.map Char.toNat }
    | .error _ => none
  | _ => none

/-- A stand-in for the library parameters: the serialisation above and a tag
that is the key itself. -/
def sampleLib : JwtLib :=
  { encode := sampleEncode, decode := sampleDecode,
    hmacSHA256 := fun key _ _ => key.data.map Char.toNat,
    verifyOther := fun _ _ _ _ _ => false }

def sampleManager : Manager := { jwtSecret := "secret" }

/-- A request for user 2 that carries the credential `abc`. -/
def sampleRequest : Request :=
  { urlParams := [("id", "2"), ("note_id", "5")],
    header := [("Authorization", "Bearer abc")],
    query := [], body := some { Title := "shopping", Content := "milk" } }

/-- A token parser that verifies every credential as identity 1. -/
def parserOne : String → Int × Option GoError := fun _ => (1, none)

/-- A token parser that verifies every credential as identity 2. -/
def parserTwo : String → Int × Option GoError := fun _ => (2, none)

/-- A wrapped handler that writes nothing. -/
def idleHandler : Request → Outcome := fun _ => { status := none, body := none, calls := [] }

/-- One gibibyte of obtainable memory. -/
def sampleMemory : Int := 1073741824

/-- A pool that answers every query with no rows. -/
def emptyPool : Pool := fun _ _ => .ok { scans := [], err := none }

/-- A notes table with note 7 owned by identity 1. -/
def sampleTable : List NoteRow :=
  [{ id := 7, userID := 1, title := "shopping", content := "milk",
     createdAt := 100, updatedAt := 100 }]

/-- The error `context.DeadlineExceeded`. -/
def context_DeadlineExceeded : GoError :=
  errorsNew .DeadlineExceeded "context deadline exceeded"

/-- Note 7 as a query returns it. -/
def sampleNote : Note :=
  { ID := 7, Title := "shopping", Content := "milk", CreatedAt := 100, UpdatedAt := 100 }

/-- A pool whose query delivers note 7 and is then ended by the deadline. -/
def interruptedPool : Pool :=
  fun _ _ => .ok { scans := [.ok sampleNote], err := some context_DeadlineExceeded }

/-- A pool whose query is ended by the deadline before it delivers a row. -/
def timedOutPool : Pool :=
  fun _ _ => .ok { scans := [], err := some context_DeadlineExceeded }

/-- The unique-constraint violation as the driver reports it. -/
def uniqueViolationError : GoError :=
  { msg := "ERROR: duplicate key value violates unique constraint (SQLSTATE 23505)",
    chain := [], pgCode := some "23505" }

/-- A registration request for the user name `alice`. -/
def registerRequest : Request :=
  { urlParams := [], header := [], query := [], body := none,
    userBody := some { Username := "alice" } }

/-- A token generator that issues the token `jwt` for every identity. -/
def sampleGenerator : Int → Int → String × Option GoError := fun _ _ => ("jwt", none)

/-! # Theorems -/

/-! ## Lemmas on `strings.Split` -/

theorem splitChars_ne_nil (sep : Char) (l : List Char) : splitChars sep l ≠ [] := by
  cases l with
  | nil => simp [splitChars]
  | cons c cs =>
    unfold splitChars
    split
    · simp
    · split <;> simp

theorem splitChars_of_not_mem (sep : Char) (l : List Char) (h : sep ∉ l) :
    splitChars sep l = [l] := by
  induction l with
  | nil => rfl
  | cons c cs ih =>
    simp only [List.mem_cons, not_or] at h
    have hc : c ≠ sep := fun e => h.1 e.symm
    simp [splitChars, hc, ih h.2]

theorem splitChars_append (sep : Char) (a b : List Char) (h : sep ∉ a) :
    splitChars sep (a ++ sep :: b) = a :: splitChars sep b := by
  induction a with
  | nil => simp [splitChars]
  | cons c cs ih =>
    simp only [List.mem_cons, not_or] at h
    have hc : c ≠ sep := fun e => h.1 e.symm
    simp [splitChars, hc, ih h.2]

theorem splitChars_eq_single (sep : Char) (l b : List Char)
    (h : splitChars sep l = [b]) : l = b ∧ sep ∉ l := by
  induction l generalizing b with
  | nil => simp [splitChars] at h; simp [h]
  | cons c cs ih =>
    unfold splitChars at h
    split at h
    · simp at h
      exact absurd h.2 (splitChars_ne_nil sep cs)
    · rename_i hc
      split at h
      · rename_i hnil
        exact absurd hnil (splitChars_ne_nil sep cs)
      · rename_i p ps hp
        simp at h
        obtain ⟨h1, h2⟩ := h
        subst h2
        obtain ⟨e, hn⟩ := ih p hp
        subst e
        subst h1
        refine ⟨rfl, ?_⟩
        simp only [List.mem_cons, not_or]
        exact ⟨fun e => hc e.symm, hn⟩

theorem splitChars_eq_pair (sep : Char) (l a b : List Char)
    (h : splitChars sep l = [a, b]) : l = a ++ sep :: b ∧ sep ∉ a ∧ sep ∉ b := by
  induction l generalizing a with
  | nil => simp [splitChars] at h
  | cons c cs ih =>
    unfold splitChars at h
    split at h
    · rename_i hc
      simp at h
      obtain ⟨h1, h2⟩ := h
      obtain ⟨e, hn⟩ := splitChars_eq_single sep cs b h2
      subst e; subst h1; subst hc
      simp [hn]
    · rename_i hc
      split at h
      · rename_i hnil
        exact absurd hnil (splitChars_ne_nil sep cs)
      · rename_i p ps hp
        simp at h
        obtain ⟨h1, h2⟩ := h
        subst h2; subst h1
        obtain ⟨e, hna, hnb⟩ := ih p hp
        refine ⟨by simp [e], ?_, hnb⟩
        simp only [List.mem_cons, not_or]
        exact ⟨fun e => hc e.symm, hna⟩

/-! ## Lemmas on the middleware -/

theorem Split_bearer (tok : String) (hsp : ' ' ∉ tok.data) :
    Split ("Bearer " ++ tok) ' ' = ["Bearer", tok] := by
  have hd : ("Bearer " ++ tok).data = ['B', 'e', 'a', 'r', 'e', 'r'] ++ ' ' :: tok.data := by
    simp [String.data_append]
  unfold Split
  rw [hd, splitChars_append _ _ _ (by decide), splitChars_of_not_mem _ _ hsp]
  rfl

theorem Split_pair_inv (h x y : String) (hs : Split h ' ' = [x, y]) :
    h = x ++ " " ++ y ∧ ' ' ∉ x.data ∧ ' ' ∉ y.data := by
  unfold Split at hs
  match hsc : splitChars ' ' h.data, hs with
  | [a, b], hs =>
    simp at hs
    obtain ⟨e, hna, hnb⟩ := splitChars_eq_pair ' ' h.data a b hsc
    obtain ⟨h1, h2⟩ := hs
    subst h1; subst h2
    refine ⟨?_, hna, hnb⟩
    apply String.ext
    simp [String.data_append, e]
  | [], hs => simp at hs
  | [_], hs => simp at hs
  | _ :: _ :: _ :: _, hs => simp at hs

theorem Authorize_malformed (tokenParser : String → Int × Option GoError)
    (next : Request → Outcome) (r : Request) (p : Int)
    (hid : Atoi (URLParam r "id") = .ok p)
    (hbad : ¬ ∃ tok, WellFormedBearer (HeaderGet r "Authorization") tok) :
    (Authorize tokenParser next r).status = some 401 ∧
    (Authorize tokenParser next r).calls = [] := by
  unfold Authorize
  simp only [hid]
  split
  · simp [writeErr]
  · rename_i hc
    simp only [not_or, not_not, ne_eq] at hc
    obtain ⟨hlen, hhead⟩ := hc
    split
    · simp [writeErr]
    · rename_i htok
      exfalso
      apply hbad
      match hsp : Split (HeaderGet r "Authorization") ' ', hlen, hhead, htok with
      | [x, y], _, hhead, htok =>
        simp at hhead
        subst hhead
        simp at htok
        obtain ⟨e, _, hny⟩ := Split_pair_inv _ _ _ hsp
        exact ⟨y, e, htok, hny⟩
      | [], hlen, _, _ => simp at hlen
      | [_], hlen, _, _ => simp at hlen
      | _ :: _ :: _ :: _, hlen, _, _ => simp at hlen

theorem Authorize_wellformed (tokenParser : String → Int × Option GoError)
    (next : Request → Outcome) (r : Request) (p : Int) (tok : String)
    (hid : Atoi (URLParam r "id") = .ok p)
    (hwf : WellFormedBearer (HeaderGet r "Authorization") tok) :
    Authorize tokenParser next r =
      if errorsIs (tokenParser tok).2 .ErrSubEmpty then
        writeErr 401 "invalid token" [.parseToken tok]
      else if errorsIs (tokenParser tok).2 .ErrTokenExpired then
        writeErr 401 "token is expired" [.parseToken tok]
      else if (tokenParser tok).2 ≠ none then
        writeErr 401 "invalid token" [.parseToken tok]
      else if (tokenParser tok).1 ≠ p then
        writeErr 403 "you have no access to this user's notes" [.parseToken tok]
      else
        { next r with calls := .parseToken tok :: .serveNext :: (next r).calls } := by
  obtain ⟨he, hne, hsp⟩ := hwf
  unfold Authorize
  simp only [hid, he, Split_bearer tok hsp]
  simp [hne]

/-! ## Lemmas on `strconv` -/

theorem digitVal_ofNat (d : Nat) (h : d < 10) :
    digitVal (Char.ofNat ('0'.toNat + d)) = some d := by
  interval_cases d <;> decide

theorem parseDigits_digitsAux (fuel : Nat) :
    ∀ (n : Nat) (acc : List Char), n < fuel →
      ∃ k, ∀ a, parseDigits a (digitsAux fuel n acc) = parseDigits (a * 10 ^ k + n) acc := by
  induction fuel with
  | zero => intro n acc h; omega
  | succ fuel ih =>
    intro n acc h
    unfold digitsAux
    by_cases h0 : n / 10 = 0
    · refine ⟨1, fun a => ?_⟩
      have hn : n % 10 = n := Nat.mod_eq_of_lt (by omega)
      simp only [h0, if_true]
      simp only [parseDigits, digitVal_ofNat (n % 10) (Nat.mod_lt _ (by decide))]
      rw [hn]; simp
    · obtain ⟨k, hk⟩ := ih (n / 10) (Char.ofNat ('0'.toNat + n % 10) :: acc) (by omega)
      refine ⟨k + 1, fun a => ?_⟩
      simp only [h0, if_false]
      rw [hk a]
      simp only [parseDigits, digitVal_ofNat (n % 10) (Nat.mod_lt _ (by decide))]
      congr 1
      have := Nat.div_add_mod n 10
      rw [pow_succ]
      nlinarith [Nat.div_add_mod n 10]

theorem parseDigits_natDigits (n : Nat) : parseDigits 0 (natDigits n) = some n := by
  obtain ⟨k, hk⟩ := parseDigits_digitsAux (n + 1) n [] (by omega)
  unfold natDigits
  rw [hk 0]
  simp [parseDigits]

theorem digitsAux_ne_nil (fuel n : Nat) (acc : List Char) (h : 0 < fuel) :
    digitsAux fuel n acc ≠ [] := by
  induction fuel generalizing n acc with
  | zero => omega
  | succ fuel ih =>
    unfold digitsAux
    by_cases h0 : n / 10 = 0
    · simp [h0]
    · simp only [h0, if_false]
      cases fuel with
      | zero => simp [digitsAux]
      | succ f => exact ih _ _ (by omega)

theorem natDigits_ne_nil (n : Nat) : natDigits n ≠ [] :=
  digitsAux_ne_nil (n + 1) n [] (by omega)

theorem atoi_natDigits (n : Nat) :
    ∃ c cs, natDigits n = c :: cs ∧ c ≠ '-' ∧ c ≠ '+' := by
  have hp := parseDigits_natDigits n
  match hd : natDigits n with
  | [] => exact absurd hd (natDigits_ne_nil n)
  | c :: cs =>
    refine ⟨c, cs, rfl, ?_, ?_⟩
    · rintro rfl
      rw [hd] at hp
      simp [parseDigits, digitVal] at hp
    · rintro rfl
      rw [hd] at hp
      simp [parseDigits, digitVal] at hp

theorem Atoi_Itoa (n : Int) (hlo : minInt ≤ n) (hhi : n ≤ maxInt) : Atoi (Itoa n) = .ok n := by
  unfold minInt at hlo
  unfold Itoa
  by_cases hneg : n < 0
  · simp only [hneg, if_true]
    unfold Atoi
    simp only
    obtain ⟨c, cs, hd, _, _⟩ := atoi_natDigits n.natAbs
    unfold atoiDigits
    rw [hd]
    simp only
    rw [← hd, parseDigits_natDigits]
    simp only [if_true]
    have h1 : (n.natAbs : Int) = -n := by omega
    rw [h1]
    have h2 : -n ≤ 9223372036854775808 := by omega
    simp [h2]
  · simp only [hneg, if_false]
    unfold Atoi
    obtain ⟨c, cs, hd, hc1, hc2⟩ := atoi_natDigits n.natAbs
    simp only [hd]
    split
    · rename_i heq; simp at heq
    · rename_i heq; simp at heq; exact absurd heq.1 hc1
    · rename_i heq; simp at heq; exact absurd heq.1 hc2
    · unfold atoiDigits
      simp only
      rw [← hd, parseDigits_natDigits]
      have h1 : (n.natAbs : Int) = n := by omega
      simp only [h1]
      simp [hhi]

/-! ## Lemmas on the errors of `ParseToken` -/

theorem Atoi_error_chain (s : String) (e : GoError) (h : Atoi s = .error e) :
    .ErrSubEmpty ∉ e.chain := by
  unfold Atoi at h
  split at h
  all_goals (first
    | (simp only [Except.error.injEq] at h; subst h; simp [errSyntax])
    | (unfold atoiDigits at h
       repeat' split at h
       all_goals (first
         | (simp only [Except.error.injEq] at h; subst h; simp [errSyntax, errRange])
         | simp at h)))

theorem Validate_chain (c : Claims) (now : Int) (e : GoError) (h : Validate c now = some e) :
    .ErrSubEmpty ∉ e.chain := by
  unfold Validate at h
  simp only at h
  split at h
  · simp at h
  · simp only [Option.some.injEq] at h
    subst h
    simp only [List.map_append, List.flatten_append, List.mem_append, not_or]
    constructor
    · unfold verifyExpiresAt
      repeat' split
      all_goals simp [newError]
    · unfold verifyNotBefore
      repeat' split
      all_goals simp [newError]

theorem jwtParse_error_chain (lib : JwtLib) (vm : List String) (m : Manager) (now : Int)
    (s : String) (e : GoError) (h : jwtParse lib vm (keyFunc m) now s = .error e) :
    .ErrSubEmpty ∉ e.chain := by
  unfold jwtParse at h
  repeat' split at h
  all_goals (first
    | (simp only [Except.error.injEq] at h; subst h)
    | (exact absurd h (by simp)))
  all_goals (try (simp [newError, errorsNew]; done))
  · rename_i e' hk
    simp only [newError, List.map_cons, List.map_nil, List.flatten_cons, List.flatten_nil,
      List.append_nil, List.mem_cons, not_or]
    refine ⟨by decide, ?_⟩
    unfold keyFunc at hk
    split at hk
    · simp only [Except.error.injEq] at hk; subst hk; simp
    · simp at hk
  · rename_i e' hv
    simp only [newError, List.map_cons, List.map_nil, List.flatten_cons, List.flatten_nil,
      List.append_nil, List.mem_cons, not_or]
    exact ⟨by decide, Validate_chain _ _ _ hv⟩

theorem ParseToken_error_chain (lib : JwtLib) (m : Manager) (now : Int) (s : String)
    (e : GoError) (h : (ParseToken lib m now s).2 = some e) :
    .ErrSubEmpty ∈ e.chain → .ErrTokenExpired ∉ e.chain := by
  unfold ParseToken at h
  split at h
  · rename_i err hp
    simp only [Option.some.injEq] at h
    subst h
    intro hin
    exact absurd hin (jwtParse_error_chain lib _ m now s err hp)
  · split at h
    · rename_i err hs
      simp only [Option.some.injEq] at h
      subst h
      unfold GetSubject at hs
      split at hs <;> simp at hs
      subst hs
      simp [wrapOp, newError]
    · split at h
      · simp only [Option.some.injEq] at h
        subst h
        simp [wrapOp, auth_ErrSubEmpty, errorsNew]
      · split at h
        · rename_i err ha
          simp only [Option.some.injEq] at h
          subst h
          intro hin
          exact absurd hin (Atoi_error_chain _ err ha)
        · simp at h

/-! ## Lemmas on the handlers -/

theorem sort_switch_cases (lowered : String) (s : String)
    (h : (if lowered = "asc" then some "ASC" else if lowered = "desc" then some "DESC"
          else none) = some s) :
    (lowered = "asc" ∧ s = "ASC") ∨ (lowered = "desc" ∧ s = "DESC") := by
  by_cases h1 : lowered = "asc"
  · simp [h1] at h; exact Or.inl ⟨h1, h.symm⟩
  · by_cases h2 : lowered = "desc"
    · simp [h2] at h; exact Or.inr ⟨h2, h.symm⟩
    · simp [h1, h2] at h

theorem sort_switch_none (lowered : String)
    (h : (if lowered = "asc" then some "ASC" else if lowered = "desc" then some "DESC"
          else none) = none) :
    lowered ≠ "asc" ∧ lowered ≠ "desc" := by
  by_cases h1 : lowered = "asc"
  · simp [h1] at h
  · by_cases h2 : lowered = "desc"
    · simp [h2] at h
    · exact ⟨h1, h2⟩

theorem NewGetNotesHandler_cases (lowerTable : Char → Char)
    (notesGetter : Int → Int → Int → String → List Note × List Int × Option GoError)
    (r : Request) :
    ((NewGetNotesHandler lowerTable notesGetter r).status = some 400 ∧
      (NewGetNotesHandler lowerTable notesGetter r).calls = [] ∧
      ((∃ e, Atoi (URLParam r "id") = .error e) ∨
       (∃ e, (if QueryGet r "limit" ≠ "" then Atoi (QueryGet r "limit") else .ok 10) = .error e) ∨
       (∃ e, (if QueryGet r "offset" ≠ "" then Atoi (QueryGet r "offset") else .ok 0) = .error e) ∨
       (ToLower lowerTable (if QueryGet r "sort" ≠ "" then QueryGet r "sort" else "ASC") ≠ "asc" ∧
        ToLower lowerTable (if QueryGet r "sort" ≠ "" then QueryGet r "sort" else "ASC") ≠ "desc"))) ∨
    ∃ userID limit offset sort,
      Atoi (URLParam r "id") = .ok userID ∧
      (if QueryGet r "limit" ≠ "" then Atoi (QueryGet r "limit") else .ok 10) = .ok limit ∧
      (if QueryGet r "offset" ≠ "" then Atoi (QueryGet r "offset") else .ok 0) = .ok offset ∧
      ((ToLower lowerTable (if QueryGet r "sort" ≠ "" then QueryGet r "sort" else "ASC") = "asc"
          ∧ sort = "ASC") ∨
       (ToLower lowerTable (if QueryGet r "sort" ≠ "" then QueryGet r "sort" else "ASC") = "desc"
          ∧ sort = "DESC")) ∧
      (NewGetNotesHandler lowerTable notesGetter r).calls =
        [Call.getNotes userID limit offset sort] := by
  unfold NewGetNotesHandler
  cases hid : Atoi (URLParam r "id") with
  | error e => left; simp [writeErr]
  | ok userID =>
    cases hl : (if QueryGet r "limit" ≠ "" then Atoi (QueryGet r "limit") else .ok 10) with
    | error e => left; simp [writeErr]
    | ok limit =>
      cases ho : (if QueryGet r "offset" ≠ "" then Atoi (QueryGet r "offset") else .ok 0) with
      | error e => left; simp [writeErr]
      | ok offset =>
        simp only
        generalize hsw : (if ToLower lowerTable
            (if QueryGet r "sort" ≠ "" then QueryGet r "sort" else "ASC") = "asc" then some "ASC"
          else if ToLower lowerTable
            (if QueryGet r "sort" ≠ "" then QueryGet r "sort" else "ASC") = "desc" then some "DESC"
          else none) = sw
        cases sw with
        | none =>
          left
          refine ⟨by simp [writeErr], by simp [writeErr], Or.inr (Or.inr (Or.inr ?_))⟩
          exact sort_switch_none _ hsw
        | some sort =>
          right
          refine ⟨userID, limit, offset, sort, rfl, rfl, rfl, sort_switch_cases _ _ hsw, ?_⟩
          simp only
          repeat' split
          all_goals simp [writeErr]

theorem errorsIs_some (e : GoError) (s : Sentinel) :
    errorsIs (some e) s = decide (s ∈ e.chain) := rfl

theorem NewGetNoteHandler_cases (noteGetter : Int → Int → Note × Int × Option GoError)
    (r : Request) :
    ((NewGetNoteHandler noteGetter r).status = some 400 ∧
      (NewGetNoteHandler noteGetter r).calls = []) ∨
    ∃ userID noteID,
      Atoi (URLParam r "id") = .ok userID ∧ Atoi (URLParam r "note_id") = .ok noteID ∧
      (NewGetNoteHandler noteGetter r).calls = [Call.getNote noteID userID] ∧
      ((NewGetNoteHandler noteGetter r).status, (NewGetNoteHandler noteGetter r).body) =
        (match (noteGetter noteID userID).2.2 with
         | none => (none, some (.getNote StatusOK (noteGetter noteID userID).1))
         | some e => classResponse "no notes with this id" (classify .ErrNoNotes e)) := by
  unfold NewGetNoteHandler
  cases hid : Atoi (URLParam r "id") with
  | error e => left; simp [writeErr]
  | ok userID =>
    cases hn : Atoi (URLParam r "note_id") with
    | error e => left; simp [writeErr]
    | ok noteID =>
      right
      refine ⟨userID, noteID, rfl, rfl, ?_, ?_⟩
      · simp only
        repeat' split
        all_goals simp [writeErr]
      · simp only
        cases hres : (noteGetter noteID userID).2.2 with
        | none => simp [errorsIs]
        | some e =>
          simp only [errorsIs_some, classify]
          by_cases h1 : Sentinel.Canceled ∈ e.chain
          · simp [h1, classResponse]
          · by_cases h2 : Sentinel.DeadlineExceeded ∈ e.chain
            · simp [h1, h2, classResponse, writeErr]
            · by_cases h3 : Sentinel.ErrNoNotes ∈ e.chain
              · simp [h1, h2, h3, classResponse, writeErr]
              · simp [h1, h2, h3, classResponse, writeErr]

theorem NewGetNotesHandler_response (lowerTable : Char → Char)
    (notesGetter : Int → Int → Int → String → List Note × List Int × Option GoError)
    (r : Request) (userID limit offset : Int) (sort : String)
    (h : Call.getNotes userID limit offset sort ∈
      (NewGetNotesHandler lowerTable notesGetter r).calls) :
    Atoi (URLParam r "id") = .ok userID ∧
    ((NewGetNotesHandler lowerTable notesGetter r).status,
      (NewGetNotesHandler lowerTable notesGetter r).body) =
      (match (notesGetter userID limit offset sort).2.2 with
       | none => (none, some (.getNotes StatusOK (notesGetter userID limit offset sort).1))
       | some e =>
         classResponse "user have no notes or offset is too big" (classify .ErrUserNoNotes e)) := by
  rcases NewGetNotesHandler_cases lowerTable notesGetter r with
    ⟨_, hc, _⟩ | ⟨u, l, o, s, hid, hl, ho, hsw, hc⟩
  · rw [hc] at h; simp at h
  · rw [hc] at h
    simp only [List.mem_singleton, Call.getNotes.injEq] at h
    obtain ⟨rfl, rfl, rfl, rfl⟩ := h
    refine ⟨hid, ?_⟩
    have hsw' : (if ToLower lowerTable (if QueryGet r "sort" ≠ "" then QueryGet r "sort" else "ASC")
          = "asc" then some "ASC"
        else if ToLower lowerTable (if QueryGet r "sort" ≠ "" then QueryGet r "sort" else "ASC")
          = "desc" then some "DESC" else none) = some sort := by
      rcases hsw with ⟨h1, h2⟩ | ⟨h1, h2⟩
      · rw [if_pos h1, h2]
      · have hne : ¬ ToLower lowerTable
            (if QueryGet r "sort" ≠ "" then QueryGet r "sort" else "ASC") = "asc" := by
          rw [h1]; decide
        rw [if_neg hne, if_pos h1, h2]
    unfold NewGetNotesHandler
    simp only [hid, hl, ho, hsw']
    cases hres : (notesGetter userID limit offset sort).2.2 with
    | none => simp [errorsIs]
    | some e =>
      simp only [errorsIs_some, classify]
      by_cases h1 : Sentinel.Canceled ∈ e.chain
      · simp [h1, classResponse]
      · by_cases h2 : Sentinel.DeadlineExceeded ∈ e.chain
        · simp [h1, h2, classResponse, writeErr]
        · by_cases h3 : Sentinel.ErrUserNoNotes ∈ e.chain
          · simp [h1, h2, h3, classResponse, writeErr]
          · simp [h1, h2, h3, classResponse, writeErr]

theorem NewUpdateNoteHandler_cases
    (noteUpdater : Int → Int → String → String → Int × Option GoError) (r : Request) :
    ((NewUpdateNoteHandler noteUpdater r).status = some 400 ∧
      (NewUpdateNoteHandler noteUpdater r).calls = []) ∨
    ∃ userID noteID req,
      Atoi (URLParam r "id") = .ok userID ∧ Atoi (URLParam r "note_id") = .ok noteID ∧
      r.body = some req ∧
      (NewUpdateNoteHandler noteUpdater r).calls =
        [Call.updateNote noteID userID req.Title req.Content] ∧
      ((NewUpdateNoteHandler noteUpdater r).status, (NewUpdateNoteHandler noteUpdater r).body) =
        (match (noteUpdater noteID userID req.Title req.Content).2 with
         | none => (some 201, some respOK)
         | some e => classResponse "no notes with this id" (classify .ErrNoNotes e)) := by
  unfold NewUpdateNoteHandler
  cases hid : Atoi (URLParam r "id") with
  | error e => left; simp [writeErr]
  | ok userID =>
    cases hn : Atoi (URLParam r "note_id") with
    | error e => left; simp [writeErr]
    | ok noteID =>
      cases hb : r.body with
      | none => left; simp [writeErr]
      | some req =>
        by_cases hv : validateRequest req ≠ []
        · left; simp only [if_pos hv]; simp
        · right
          refine ⟨userID, noteID, req, rfl, rfl, rfl, ?_, ?_⟩
          · simp only [if_neg hv]
            repeat' split
            all_goals simp [writeErr]
          · simp only [if_neg hv]
            cases hres : (noteUpdater noteID userID req.Title req.Content).2 with
            | none => simp [errorsIs]
            | some e =>
              simp only [errorsIs_some, classify]
              by_cases h1 : Sentinel.Canceled ∈ e.chain
              · simp [h1, classResponse]
              · by_cases h2 : Sentinel.DeadlineExceeded ∈ e.chain
                · simp [h1, h2, classResponse, writeErr]
                · by_cases h3 : Sentinel.ErrNoNotes ∈ e.chain
                  · simp [h1, h2, h3, classResponse, writeErr]
                  · simp [h1, h2, h3, classResponse, writeErr]

theorem NewSaveNoteHandler_cases
    (noteSaver : Int → String → String → Int × Option GoError) (r : Request) :
    (NewSaveNoteHandler noteSaver r).calls = [] ∨
    ∃ (userID : Int) (req : NoteRequest),
      Atoi (URLParam r "id") = .ok userID ∧
      (NewSaveNoteHandler noteSaver r).calls = [Call.saveNote userID req.Title req.Content] := by
  unfold NewSaveNoteHandler
  cases hid : Atoi (URLParam r "id") with
  | error e => left; simp [writeErr]
  | ok userID =>
    cases hb : r.body with
    | none => left; simp [writeErr]
    | some req =>
      by_cases hv : validateRequest req ≠ []
      · left; simp only [if_pos hv]
      · right
        refine ⟨userID, req, rfl, ?_⟩
        simp only [if_neg hv]
        repeat' split
        all_goals simp [writeErr]

/-! ## The middleware (C1, C2, C3) -/

/-- C1. For every request whose path id parses to `p`, whose Authorization
header has the shape `Bearer <token>` and whose token the parser verifies as
the subject `s`, if `s` differs from `p` the middleware answers 403 and does
not invoke the wrapped handler. -/
theorem Authorize_forbidden_on_mismatch (tokenParser : String → Int × Option GoError)
    (next : Request → Outcome) (r : Request) (p s : Int) (tok : String)
    (hid : Atoi (URLParam r "id") = .ok p)
    (hwf : WellFormedBearer (HeaderGet r "Authorization") tok)
    (hparse : tokenParser tok = (s, none))
    (hne : s ≠ p) :
    (Authorize tokenParser next r).status = some 403 ∧
    Call.serveNext ∉ (Authorize tokenParser next r).calls := by
  rw [Authorize_wellformed tokenParser next r p tok hid hwf, hparse]
  simp [errorsIs, hne, writeErr]

theorem Authorize_forbidden_on_mismatch_witness :
    (Authorize parserOne idleHandler sampleRequest).status = some 403 ∧
    Call.serveNext ∉ (Authorize parserOne idleHandler sampleRequest).calls :=
  Authorize_forbidden_on_mismatch parserOne idleHandler sampleRequest 2 1 "abc"
    (by decide) ⟨by decide, by decide, by decide⟩ rfl (by decide)

/-- C2. For every request with a numeric path id, if the Authorization header
value is not the word `Bearer`, one space and a non-empty token without a
space, the middleware answers 401, does not call `ParseToken` and does not
invoke the wrapped handler. -/
theorem Authorize_unauthorized_on_malformed_header
    (tokenParser : String → Int × Option GoError)
    (next : Request → Outcome) (r : Request) (p : Int)
    (hid : Atoi (URLParam r "id") = .ok p)
    (hbad : ¬ ∃ tok, WellFormedBearer (HeaderGet r "Authorization") tok) :
    (Authorize tokenParser next r).status = some 401 ∧
    (∀ t, Call.parseToken t ∉ (Authorize tokenParser next r).calls) ∧
    Call.serveNext ∉ (Authorize tokenParser next r).calls := by
  obtain ⟨h1, h2⟩ := Authorize_malformed tokenParser next r p hid hbad
  simp [h1, h2]

theorem Authorize_unauthorized_on_malformed_header_witness :
    (Authorize parserTwo idleHandler
        { sampleRequest with header := [("Authorization", "Bearer  abc")] }).status = some 401 ∧
    (∀ t, Call.parseToken t ∉ (Authorize parserTwo idleHandler
        { sampleRequest with header := [("Authorization", "Bearer  abc")] }).calls) ∧
    Call.serveNext ∉ (Authorize parserTwo idleHandler
        { sampleRequest with header := [("Authorization", "Bearer  abc")] }).calls :=
  Authorize_unauthorized_on_malformed_header parserTwo idleHandler
    { sampleRequest with header := [("Authorization", "Bearer  abc")] } 2 (by decide)
    (by
      rintro ⟨tok, he, _, hsp⟩
      have hd : HeaderGet { sampleRequest with header := [("Authorization", "Bearer  abc")] }
          "Authorization" = "Bearer  abc" := by decide
      rw [hd] at he
      have hdata := congrArg String.data he
      simp [String.data_append] at hdata
      apply hsp
      rw [← hdata]
      decide)

/-- C3. For every error that `ParseToken` returns, the middleware answers 401
and does not invoke the wrapped handler; the message is the expired-token
message exactly when the error wraps `jwt.ErrTokenExpired`, and the one
invalid-token message for every other failure, an empty subject included. -/
theorem Authorize_unauthorized_on_parse_error (lib : JwtLib) (m : Manager) (now : Int)
    (next : Request → Outcome) (r : Request) (p : Int) (tok : String) (e : GoError)
    (hid : Atoi (URLParam r "id") = .ok p)
    (hwf : WellFormedBearer (HeaderGet r "Authorization") tok)
    (herr : (ParseToken lib m now tok).2 = some e) :
    (Authorize (ParseToken lib m now) next r).status = some 401 ∧
    Call.serveNext ∉ (Authorize (ParseToken lib m now) next r).calls ∧
    (Authorize (ParseToken lib m now) next r).body =
      some (respErr (if errorsIs (some e) .ErrTokenExpired then "token is expired"
                     else "invalid token")) ∧
    (errorsIs (some e) .ErrSubEmpty →
      (Authorize (ParseToken lib m now) next r).body = some (respErr "invalid token")) := by
  have hx := ParseToken_error_chain lib m now tok e herr
  rw [Authorize_wellformed _ next r p tok hid hwf, herr]
  by_cases h1 : Sentinel.ErrSubEmpty ∈ e.chain
  · have h2 := hx h1
    simp [errorsIs, h1, h2, writeErr]
  · by_cases h2 : Sentinel.ErrTokenExpired ∈ e.chain
    · simp [errorsIs, h1, h2, writeErr]
    · simp [errorsIs, h1, h2, writeErr]

theorem Authorize_unauthorized_on_parse_error_witness :
    (Authorize (ParseToken sampleLib sampleManager 1200000000) idleHandler
        { sampleRequest with header := [("Authorization", "Bearer HS256.2.1.secret")] }).status
      = some 401 ∧
    (Authorize (ParseToken sampleLib sampleManager 1200000000) idleHandler
        { sampleRequest with header := [("Authorization", "Bearer HS256.2.1.secret")] }).body
      = some (respErr "token is expired") := by
  have h := Authorize_unauthorized_on_parse_error sampleLib sampleManager 1200000000 idleHandler
    { sampleRequest with header := [("Authorization", "Bearer HS256.2.1.secret")] } 2
    "HS256.2.1.secret"
    (wrapOp "auth.ParseToken" (newError "" .ErrTokenInvalidClaims [newError "" .ErrTokenExpired []]))
    (by decide) ⟨by decide, by decide, by decide⟩ (by decide)
  exact ⟨h.1, h.2.2.1⟩

/-! ## The sort direction (C4, C5) -/

/-- C4. For every value of the `sort` query parameter, the sort string that the
list handler passes to `GetNotes` is `ASC` or `DESC`; a non-empty value whose
lower-casing is neither `asc` nor `desc` (such as `'; DROP TABLE notes; --`)
is answered with 400 and `GetNotes` is not called; with an absent or empty
parameter the call that is made carries `ASC`. -/
theorem NewGetNotesHandler_sort_restricted (lowerTable : Char → Char)
    (notesGetter : Int → Int → Int → String → List Note × List Int × Option GoError)
    (r : Request) :
    (∀ userID limit offset sort,
      Call.getNotes userID limit offset sort ∈ (NewGetNotesHandler lowerTable notesGetter r).calls →
      sort = "ASC" ∨ sort = "DESC") ∧
    (QueryGet r "sort" ≠ "" →
      ToLower lowerTable (QueryGet r "sort") ≠ "asc" →
      ToLower lowerTable (QueryGet r "sort") ≠ "desc" →
      (NewGetNotesHandler lowerTable notesGetter r).status = some 400 ∧
      (NewGetNotesHandler lowerTable notesGetter r).calls = []) ∧
    (QueryGet r "sort" = "'; DROP TABLE notes; --" →
      (NewGetNotesHandler lowerTable notesGetter r).status = some 400 ∧
      (NewGetNotesHandler lowerTable notesGetter r).calls = []) ∧
    (QueryGet r "sort" = "" →
      (∀ userID limit offset sort,
        Call.getNotes userID limit offset sort ∈
          (NewGetNotesHandler lowerTable notesGetter r).calls → sort = "ASC") ∧
      (∀ userID limit offset,
        Atoi (URLParam r "id") = .ok userID →
        (if QueryGet r "limit" ≠ "" then Atoi (QueryGet r "limit") else .ok 10) = .ok limit →
        (if QueryGet r "offset" ≠ "" then Atoi (QueryGet r "offset") else .ok 0) = .ok offset →
        (NewGetNotesHandler lowerTable notesGetter r).calls =
          [Call.getNotes userID limit offset "ASC"])) := by
  have hasc : ToLower lowerTable "ASC" = "asc" := by
    simp [ToLower, runeToLower]
  have hdrop : ToLower lowerTable "'; DROP TABLE notes; --" = "'; drop table notes; --" := by
    simp [ToLower, runeToLower]
  have hrej : QueryGet r "sort" ≠ "" →
      ToLower lowerTable (QueryGet r "sort") ≠ "asc" →
      ToLower lowerTable (QueryGet r "sort") ≠ "desc" →
      (NewGetNotesHandler lowerTable notesGetter r).status = some 400 ∧
      (NewGetNotesHandler lowerTable notesGetter r).calls = [] := by
    intro hne h1 h2
    rcases NewGetNotesHandler_cases lowerTable notesGetter r with
      ⟨hs, hc, _⟩ | ⟨u, l, o, s, _, _, _, hsw, _⟩
    · exact ⟨hs, hc⟩
    · rw [if_pos hne] at hsw
      rcases hsw with ⟨h, _⟩ | ⟨h, _⟩
      · exact absurd h h1
      · exact absurd h h2
  refine ⟨?_, hrej, ?_, ?_⟩
  · intro u l o s hmem
    rcases NewGetNotesHandler_cases lowerTable notesGetter r with
      ⟨_, hc, _⟩ | ⟨u', l', o', s', _, _, _, hsw, hc⟩
    · rw [hc] at hmem; simp at hmem
    · rw [hc] at hmem
      simp only [List.mem_singleton, Call.getNotes.injEq] at hmem
      obtain ⟨_, _, _, hs⟩ := hmem
      subst hs
      rcases hsw with ⟨_, h⟩ | ⟨_, h⟩
      · exact Or.inl h
      · exact Or.inr h
  · intro he
    apply hrej
    · rw [he]; decide
    · rw [he, hdrop]; decide
    · rw [he, hdrop]; decide
  · intro he
    have hnot : ¬ QueryGet r "sort" ≠ "" := by simp [he]
    constructor
    · intro u l o s hmem
      rcases NewGetNotesHandler_cases lowerTable notesGetter r with
        ⟨_, hc, _⟩ | ⟨u', l', o', s', _, _, _, hsw, hc⟩
      · rw [hc] at hmem; simp at hmem
      · rw [hc] at hmem
        simp only [List.mem_singleton, Call.getNotes.injEq] at hmem
        obtain ⟨_, _, _, hs⟩ := hmem
        subst hs
        rw [if_neg hnot, hasc] at hsw
        rcases hsw with ⟨_, h⟩ | ⟨h, _⟩
        · exact h
        · exact absurd h (by decide)
    · intro u l o hid hl ho
      rcases NewGetNotesHandler_cases lowerTable notesGetter r with
        ⟨_, _, hbad⟩ | ⟨u', l', o', s', hid', hl', ho', hsw, hc⟩
      · rcases hbad with ⟨e, h⟩ | ⟨e, h⟩ | ⟨e, h⟩ | ⟨h, _⟩
        · rw [hid] at h; exact Except.noConfusion h
        · rw [hl] at h; exact Except.noConfusion h
        · rw [ho] at h; exact Except.noConfusion h
        · rw [if_neg hnot, hasc] at h; exact absurd rfl h
      · rw [hid] at hid'; rw [hl] at hl'; rw [ho] at ho'
        cases hid'; cases hl'; cases ho'
        rw [if_neg hnot, hasc] at hsw
        rcases hsw with ⟨_, h⟩ | ⟨h, _⟩
        · rw [hc, h]
        · exact absurd h (by decide)

theorem NewGetNotesHandler_sort_restricted_witness :
    (NewGetNotesHandler id (fun _ _ _ _ => ([], [], none))
        { sampleRequest with query := [("sort", "'; DROP TABLE notes; --")] }).status = some 400 ∧
    (NewGetNotesHandler id (fun _ _ _ _ => ([], [], none))
        { sampleRequest with query := [("sort", "'; DROP TABLE notes; --")] }).calls = [] :=
  (NewGetNotesHandler_sort_restricted id (fun _ _ _ _ => ([], [], none))
    { sampleRequest with query := [("sort", "'; DROP TABLE notes; --")] }).2.2.1 (by decide)

/-- C5, counterexample. `GetNotes` called with the sort argument
`ASC; DROP TABLE notes; --`, which is neither `ASC` nor `DESC`, is not
rejected: it hands to the pool a query whose text contains the argument, and
returns what the query yields. -/
theorem GetNotes_sort_counterexample :
    "ASC; DROP TABLE notes; --" ≠ "ASC" ∧ "ASC; DROP TABLE notes; --" ≠ "DESC" ∧
    GetNotes sampleMemory emptyPool 1 10 0 "ASC; DROP TABLE notes; --" =
      .returned
        { notes := [], ids := [],
          err := some (wrapOp "storage.postgres.GetNotes" storage_ErrUserNoNotes),
          executed :=
            [("SELECT id, title, content, created_at, updated_at\n\t\tFROM notes\n\t\tWHERE user_id = $1\n\t\tORDER BY created_at ASC; DROP TABLE notes; --\n\t\tLIMIT $2\n\t\tOFFSET $3",
              [1, 10, 0])] } :=
  ⟨by decide, by decide, rfl⟩

/-- C5 (as the code has it). `GetNotes` does not examine its sort argument:
for every argument, and every limit for which the two slice allocations
succeed (not negative, within `maxAlloc`, within the memory at hand), it
returns after handing exactly one query to the pool, whose text is the fixed
statement with the argument interpolated after `ORDER BY created_at `; for
the arguments `ASC` and `DESC` the text is one of two fixed statements. -/
theorem GetNotes_interpolates_sort (memory : Int) (pool : Pool)
    (userID limit offset : Int) (sort : String)
    (hlimit : 0 ≤ limit) (hcap : limit * noteSize ≤ maxAlloc)
    (hmem : limit * noteSize + limit * int64Size ≤ memory) :
    (∃ res, GetNotes memory pool userID limit offset sort = .returned res ∧
      res.executed =
        [("SELECT id, title, content, created_at, updated_at\n\t\tFROM notes\n\t\tWHERE user_id = $1\n\t\tORDER BY created_at "
            ++ sort ++ "\n\t\tLIMIT $2\n\t\tOFFSET $3", [userID, limit, offset])]) ∧
    (∃ res, GetNotes memory pool userID limit offset "ASC" = .returned res ∧
      res.executed =
        [("SELECT id, title, content, created_at, updated_at\n\t\tFROM notes\n\t\tWHERE user_id = $1\n\t\tORDER BY created_at ASC\n\t\tLIMIT $2\n\t\tOFFSET $3",
          [userID, limit, offset])]) ∧
    (∃ res, GetNotes memory pool userID limit offset "DESC" = .returned res ∧
      res.executed =
        [("SELECT id, title, content, created_at, updated_at\n\t\tFROM notes\n\t\tWHERE user_id = $1\n\t\tORDER BY created_at DESC\n\t\tLIMIT $2\n\t\tOFFSET $3",
          [userID, limit, offset])]) := by
  have h : ∀ s, ∃ res, GetNotes memory pool userID limit offset s = .returned res ∧
      res.executed = [(safeQuery s, [userID, limit, offset])] := by
    intro s
    unfold GetNotes
    rw [if_neg (by
      intro hor
      rcases hor with h1 | h2
      · exact absurd h1 (not_lt.mpr hlimit)
      · exact absurd h2 (not_lt.mpr hcap)), if_neg (not_lt.mpr hmem)]
    simp only
    split
    · exact ⟨_, rfl, rfl⟩
    · split
      · exact ⟨_, rfl, rfl⟩
      · split
        · exact ⟨_, rfl, rfl⟩
        · exact ⟨_, rfl, rfl⟩
  exact ⟨h sort, h "ASC", h "DESC"⟩

theorem GetNotes_interpolates_sort_witness :
    ∃ res, GetNotes sampleMemory emptyPool 1 10 0 "DESC" = .returned res ∧
      res.executed =
        [("SELECT id, title, content, created_at, updated_at\n\t\tFROM notes\n\t\tWHERE user_id = $1\n\t\tORDER BY created_at DESC\n\t\tLIMIT $2\n\t\tOFFSET $3",
          [1, 10, 0])] :=
  (GetNotes_interpolates_sort sampleMemory emptyPool 1 10 0 "DESC"
    (by decide) (by decide) (by decide)).1

/-- The allocation of `GetNotes` at the largest `int`: the call panics before
any query, whatever the memory at hand. -/
theorem GetNotes_panics_at_maxInt (memory : Int) (pool : Pool) (userID offset : Int)
    (sort : String) :
    GetNotes memory pool userID maxInt offset sort =
      .panicked "runtime error: makeslice: cap out of range" := by
  unfold GetNotes
  rw [if_pos (Or.inr (by decide))]

/-! ## Ownership (C6) -/

theorem no_match_of_other_owner (table : List NoteRow) (row : NoteRow) (B : Int)
    (hkey : Keyed table) (hrow : row ∈ table) (hB : B ≠ row.userID) :
    ∀ r ∈ table, rowMatches row.id B r = false := by
  intro r hr
  unfold rowMatches
  by_cases hid : r.id = row.id
  · have := List.inj_on_of_nodup_map hkey hr hrow hid
    subst this
    simp [Ne.symm hB]
  · simp [hid]

theorem no_match_of_absent_id (table : List NoteRow) (noteID B : Int)
    (h : ∀ r ∈ table, r.id ≠ noteID) :
    ∀ r ∈ table, rowMatches noteID B r = false := by
  intro r hr
  simp [rowMatches, h r hr]

theorem GetNoteOn_no_match (table : List NoteRow) (noteID userID : Int)
    (h : ∀ r ∈ table, rowMatches noteID userID r = false) :
    GetNoteOn none table noteID userID =
      ((zeroNote, 0, some (wrapOp "storage.postgres.GetNote" storage_ErrNoNotes)), table) := by
  have hf : table.find? (rowMatches noteID userID) = none := by
    rw [List.find?_eq_none]
    intro r hr; simp [h r hr]
  simp [GetNoteOn, selectNote, hf, GetNote, pgx_ErrNoRows, errorsNew, errorsIs]

theorem UpdateNoteOn_no_match (table : List NoteRow) (noteID userID : Int)
    (title content : String)
    (h : ∀ r ∈ table, rowMatches noteID userID r = false) :
    UpdateNoteOn none table noteID userID title content =
      ((0, some (wrapOp "storage.postgres.UpdateNote" storage_ErrNoNotes)), table) := by
  have hf : table.find? (rowMatches noteID userID) = none := by
    rw [List.find?_eq_none]
    intro r hr; simp [h r hr]
  have hm : table.map (fun row =>
      if rowMatches noteID userID row then { row with title := title, content := content }
      else row) = table := by
    conv_rhs => rw [← List.map_id table]
    apply List.map_congr_left
    intro r hr
    simp [h r hr]
  simp [UpdateNoteOn, updateNote, hf, hm, UpdateNote, pgx_ErrNoRows, errorsNew, errorsIs]

theorem DeleteNoteOn_no_match (table : List NoteRow) (noteID userID : Int)
    (h : ∀ r ∈ table, rowMatches noteID userID r = false) :
    DeleteNoteOn none table noteID userID =
      ((0, some (wrapOp "storage.postgres.DeleteNote" storage_ErrNoNotes)), table) := by
  have hf : table.find? (rowMatches noteID userID) = none := by
    rw [List.find?_eq_none]
    intro r hr; simp [h r hr]
  have hm : table.filter (fun row => ! rowMatches noteID userID row) = table := by
    rw [List.filter_eq_self]
    intro r hr
    simp [h r hr]
  simp [DeleteNoteOn, deleteNote, hf, hm, DeleteNote, pgx_ErrNoRows, errorsNew, errorsIs]

/-- C6. With the notes table keyed by note id, for every note of the table and
every identity `B` other than its owner, `GetNote`, `UpdateNote` and
`DeleteNote` called with the note's id and `B` each return an error that
wraps `ErrNoNotes`, the very result they return for a note id that is not in
the table, and leave the table as it is. -/
theorem ownership_opacity (table : List NoteRow) (row : NoteRow) (B : Int)
    (title content : String)
    (hkey : Keyed table) (hrow : row ∈ table) (hB : B ≠ row.userID) :
    ((GetNoteOn none table row.id B).2 = table ∧
      errorsIs (GetNoteOn none table row.id B).1.2.2 .ErrNoNotes = true ∧
      ∀ (table' : List NoteRow) (noteID' : Int), (∀ r ∈ table', r.id ≠ noteID') →
        (GetNoteOn none table' noteID' B).1 = (GetNoteOn none table row.id B).1) ∧
    ((UpdateNoteOn none table row.id B title content).2 = table ∧
      errorsIs (UpdateNoteOn none table row.id B title content).1.2 .ErrNoNotes = true ∧
      ∀ (table' : List NoteRow) (noteID' : Int), (∀ r ∈ table', r.id ≠ noteID') →
        (UpdateNoteOn none table' noteID' B title content).1 =
          (UpdateNoteOn none table row.id B title content).1) ∧
    ((DeleteNoteOn none table row.id B).2 = table ∧
      errorsIs (DeleteNoteOn none table row.id B).1.2 .ErrNoNotes = true ∧
      ∀ (table' : List NoteRow) (noteID' : Int), (∀ r ∈ table', r.id ≠ noteID') →
        (DeleteNoteOn none table' noteID' B).1 = (DeleteNoteOn none table row.id B).1) := by
  have hno := no_match_of_other_owner table row B hkey hrow hB
  refine ⟨⟨?_, ?_, ?_⟩, ⟨?_, ?_, ?_⟩, ⟨?_, ?_, ?_⟩⟩
  · rw [GetNoteOn_no_match table row.id B hno]
  · rw [GetNoteOn_no_match table row.id B hno]; rfl
  · intro table' noteID' h'
    rw [GetNoteOn_no_match table row.id B hno,
      GetNoteOn_no_match table' noteID' B (no_match_of_absent_id table' noteID' B h')]
  · rw [UpdateNoteOn_no_match table row.id B title content hno]
  · rw [UpdateNoteOn_no_match table row.id B title content hno]; rfl
  · intro table' noteID' h'
    rw [UpdateNoteOn_no_match table row.id B title content hno,
      UpdateNoteOn_no_match table' noteID' B title content
        (no_match_of_absent_id table' noteID' B h')]
  · rw [DeleteNoteOn_no_match table row.id B hno]
  · rw [DeleteNoteOn_no_match table row.id B hno]; rfl
  · intro table' noteID' h'
    rw [DeleteNoteOn_no_match table row.id B hno,
      DeleteNoteOn_no_match table' noteID' B (no_match_of_absent_id table' noteID' B h')]

theorem ownership_opacity_witness :
    (GetNoteOn none sampleTable 7 2).2 = sampleTable ∧
    errorsIs (GetNoteOn none sampleTable 7 2).1.2.2 .ErrNoNotes = true ∧
    (UpdateNoteOn none sampleTable 7 2 "t" "c").2 = sampleTable ∧
    (DeleteNoteOn none sampleTable 7 2).2 = sampleTable := by
  have h := ownership_opacity sampleTable
    { id := 7, userID := 1, title := "shopping", content := "milk",
      createdAt := 100, updatedAt := 100 } 2 "t" "c"
    (by unfold Keyed; decide) (by decide) (by decide)
  exact ⟨h.1.1, h.1.2.1, h.2.1.1, h.2.2.1⟩

/-! ## Credentials (C7, C8) -/

theorem GetSigningMethod_alg (a : String) (m : SigningMethod)
    (h : GetSigningMethod a = some m) : m.Alg = a := by
  unfold GetSigningMethod at h
  have := List.find?_some h
  simpa using this

theorem GetSigningMethod_HS256 : GetSigningMethod "HS256" = some .HS256 := by decide

theorem omitEmpty_Itoa (n : Int) : omitEmpty (Itoa n) = .str (Itoa n) := by
  unfold omitEmpty
  have hne : Itoa n ≠ "" := by
    unfold Itoa
    split
    · intro h; have := congrArg String.data h; simp at this
    · intro h; have := congrArg String.data h
      exact natDigits_ne_nil _ (by simpa using this)
  simp [hne]

/-- A token is rejected as expired from the truncated expiry instant on. -/
theorem ParseToken_expired_of_truncated_expiry (lib : JwtLib) (m : Manager)
    (issued ttl clock n : Int)
    (hcodec : lib.decode (lib.encode (generatedJWT lib m issued n ttl)) =
      some (generatedJWT lib m issued n ttl))
    (hclock : NewNumericDate (issued + ttl) * nanosPerSecond ≤ clock) :
    (ParseToken lib m clock (GenerateAccessToken lib m issued n ttl).1).1 = 0 ∧
    errorsIs (ParseToken lib m clock (GenerateAccessToken lib m issued n ttl).1).2
      .ErrTokenExpired = true := by
  unfold ParseToken GenerateAccessToken
  simp only
  have hp : jwtParse lib [alg] (keyFunc m) clock (lib.encode (generatedJWT lib m issued n ttl))
      = .error (newError "" .ErrTokenInvalidClaims
          [{ msg := "token is expired", chain := [.ErrTokenExpired], pgCode := none }]) := by
    unfold jwtParse
    rw [hcodec]
    simp only [generatedJWT, SigningMethod.Alg, GetSigningMethod_HS256, alg, keyFunc,
      methodVerify, Validate, verifyExpiresAt, verifyNotBefore, omitEmpty_Itoa]
    simp [not_lt.mpr hclock, newError, sentinelText]
    rfl
  rw [hp]
  simp [errorsIs, wrapOp, newError]

/-- C7 (as the code has it). For every identity `n` in the range of `int` and
every ttl, a token issued at `issued` is parsed back to `n` at every clock
instant strictly before `issued + ttl` truncated down to a whole second, the
instant that `NewNumericDate` stores as the expiry. -/
theorem ParseToken_GenerateAccessToken (lib : JwtLib) (m : Manager)
    (issued ttl clock n : Int)
    (hcodec : lib.decode (lib.encode (generatedJWT lib m issued n ttl)) =
      some (generatedJWT lib m issued n ttl))
    (hlo : minInt ≤ n) (hhi : n ≤ maxInt)
    (hclock : clock < NewNumericDate (issued + ttl) * nanosPerSecond) :
    ParseToken lib m clock (GenerateAccessToken lib m issued n ttl).1 = (n, none) := by
  have hne : Itoa n ≠ "" := by
    have := omitEmpty_Itoa n
    unfold omitEmpty at this
    intro h
    simp [h] at this
  unfold ParseToken GenerateAccessToken
  simp only
  have hp : jwtParse lib [alg] (keyFunc m) clock (lib.encode (generatedJWT lib m issued n ttl))
      = .ok (generatedJWT lib m issued n ttl) := by
    unfold jwtParse
    rw [hcodec]
    simp only [generatedJWT, SigningMethod.Alg, GetSigningMethod_HS256, alg, keyFunc,
      methodVerify, Validate, verifyExpiresAt, verifyNotBefore, omitEmpty_Itoa]
    simp [hclock]
  rw [hp]
  simp only [generatedJWT, omitEmpty_Itoa, GetSubject, hne, if_false, Atoi_Itoa n hlo hhi]

theorem ParseToken_GenerateAccessToken_witness :
    ParseToken sampleLib sampleManager 999999999
      (GenerateAccessToken sampleLib sampleManager 500000000 7 1000000000).1 = (7, none) :=
  ParseToken_GenerateAccessToken sampleLib sampleManager 500000000 1000000000 999999999 7
    (by decide) (by decide) (by decide) (by decide)

/-- C7, counterexample. A token for identity 7 issued at 0.5 s with a ttl of
1 s is rejected as expired at 1.2 s, an instant strictly before issue time
plus ttl (1.5 s): the stored expiry is 1 s. -/
theorem ParseToken_GenerateAccessToken_counterexample :
    (1200000000 : Int) < 500000000 + 1000000000 ∧
    sampleManager.jwtSecret ≠ "" ∧
    sampleLib.decode (sampleLib.encode (generatedJWT sampleLib sampleManager 500000000 7 1000000000))
      = some (generatedJWT sampleLib sampleManager 500000000 7 1000000000) ∧
    ParseToken sampleLib sampleManager 1200000000
      (GenerateAccessToken sampleLib sampleManager 500000000 7 1000000000).1 ≠ (7, none) ∧
    errorsIs (ParseToken sampleLib sampleManager 1200000000
      (GenerateAccessToken sampleLib sampleManager 500000000 7 1000000000).1).2
      .ErrTokenExpired = true := by
  decide

/-- C8. The key-selection callback of `ParseToken` returns the configured
secret exactly when the token's method is HS256 and an error for every other
method; `jwt.Parse` with this callback accepts only tokens that declare
HS256, whatever the list of valid methods, and `ParseToken` returns an error
and no identity for every token that declares another algorithm. -/
theorem keyFunc_pins_HS256 :
    (∀ (m : Manager) (method : SigningMethod) (a : String),
      (keyFunc m method a = .ok m.jwtSecret ↔ method = .HS256) ∧
      (method ≠ .HS256 → ∃ e, keyFunc m method a = .error e)) ∧
    (∀ (lib : JwtLib) (validMethods : List String) (m : Manager) (now : Int) (s : String)
        (t : Token),
      jwtParse lib validMethods (keyFunc m) now s = .ok t → t.alg = some "HS256") ∧
    (∀ (lib : JwtLib) (m : Manager) (now : Int) (s : String) (t : Token),
      lib.decode s = some t → t.alg ≠ some "HS256" →
      (ParseToken lib m now s).1 = 0 ∧ (ParseToken lib m now s).2 ≠ none) := by
  have hparse : ∀ (lib : JwtLib) (validMethods : List String) (m : Manager) (now : Int)
      (s : String) (t : Token),
      jwtParse lib validMethods (keyFunc m) now s = .ok t →
        lib.decode s = some t ∧ t.alg = some "HS256" := by
    intro lib vm m now s t h
    unfold jwtParse at h
    repeat' split at h
    all_goals (try contradiction)
    rename_i t0 hdec _ a halg _ method hmeth _ _ key hkey _ _ _
    simp only [Except.ok.injEq] at h
    subst h
    refine ⟨hdec, ?_⟩
    rw [halg]
    have hm : method = .HS256 := by
      unfold keyFunc at hkey
      split at hkey
      · simp at hkey
      · rename_i hne; simpa using hne
    have := GetSigningMethod_alg a method hmeth
    rw [hm] at this
    simp [← this, SigningMethod.Alg]
  refine ⟨?_, ?_, ?_⟩
  · intro m method a
    unfold keyFunc
    by_cases h : method = .HS256
    · simp [h]
    · simp [h]
  · intro lib vm m now s t h
    exact (hparse lib vm m now s t h).2
  · intro lib m now s t hdec hne
    unfold ParseToken
    split
    · simp
    · rename_i t' hp
      obtain ⟨hd, ha⟩ := hparse lib _ m now s t' hp
      rw [hdec] at hd
      simp only [Option.some.injEq] at hd
      subst hd
      exact absurd ha hne

theorem keyFunc_pins_HS256_witness :
    (keyFunc sampleManager .RS256 "RS256" = .ok sampleManager.jwtSecret ↔
      SigningMethod.RS256 = .HS256) ∧
    (ParseToken sampleLib sampleManager 0 "none.7.99.secret").1 = 0 ∧
    (ParseToken sampleLib sampleManager 0 "none.7.99.secret").2 ≠ none :=
  ⟨(keyFunc_pins_HS256.1 sampleManager .RS256 "RS256").1,
   keyFunc_pins_HS256.2.2 sampleLib sampleManager 0 "none.7.99.secret"
     { alg := some "none", claims := { sub := .str "7", exp := .date 99, nbf := .absent },
       signature := [115, 101, 99, 114, 101, 116] }
     (by decide) (by decide)⟩

/-! ## Identity forwarding and failure classification (C9, C10) -/

theorem Authorize_admits (tokenParser : String → Int × Option GoError)
    (next : Request → Outcome) (r : Request)
    (h : Call.serveNext ∈ (Authorize tokenParser next r).calls) :
    ∃ tok, WellFormedBearer (HeaderGet r "Authorization") tok ∧
      (tokenParser tok).2 = none ∧
      Atoi (URLParam r "id") = .ok (tokenParser tok).1 ∧
      (Authorize tokenParser next r).calls =
        Call.parseToken tok :: Call.serveNext :: (next r).calls := by
  cases hid : Atoi (URLParam r "id") with
  | error e =>
    unfold Authorize at h
    simp [hid, writeErr] at h
  | ok p =>
    by_cases hwf : ∃ tok, WellFormedBearer (HeaderGet r "Authorization") tok
    · obtain ⟨tok, hwf⟩ := hwf
      have heq := Authorize_wellformed tokenParser next r p tok hid hwf
      rw [heq] at h ⊢
      refine ⟨tok, hwf, ?_⟩
      by_cases h1 : errorsIs (tokenParser tok).2 .ErrSubEmpty = true
      · simp [h1, writeErr] at h
      · by_cases h2 : errorsIs (tokenParser tok).2 .ErrTokenExpired = true
        · simp [h1, h2, writeErr] at h
        · by_cases h3 : (tokenParser tok).2 ≠ none
          · simp [h1, h2, h3, writeErr] at h
          · by_cases h4 : (tokenParser tok).1 ≠ p
            · simp [h1, h2, h3, h4, writeErr] at h
            · simp only [ne_eq, not_not] at h3 h4
              simp [h3, h4, errorsIs]
    · have := (Authorize_malformed tokenParser next r p hid hwf).2
      rw [this] at h
      simp at h

theorem Authorize_admitted_calls (tokenParser : String → Int × Option GoError)
    (next : Request → Outcome) (r : Request) (tok : String)
    (hwf : WellFormedBearer (HeaderGet r "Authorization") tok)
    (herr : (tokenParser tok).2 = none)
    (hid : Atoi (URLParam r "id") = .ok (tokenParser tok).1) :
    (Authorize tokenParser next r).calls =
      Call.parseToken tok :: Call.serveNext :: (next r).calls := by
  rw [Authorize_wellformed tokenParser next r _ tok hid hwf]
  simp [herr, errorsIs]

theorem sort_switch_of_cases (lowered sort : String)
    (h : (lowered = "asc" ∧ sort = "ASC") ∨ (lowered = "desc" ∧ sort = "DESC")) :
    (if lowered = "asc" then some "ASC" else if lowered = "desc" then some "DESC"
      else none) = some sort := by
  rcases h with ⟨h1, h2⟩ | ⟨h1, h2⟩
  · rw [if_pos h1, h2]
  · have hne : ¬ lowered = "asc" := by rw [h1]; decide
    rw [if_neg hne, if_pos h1, h2]

theorem NewGetNoteHandler_reached (noteGetter : Int → Int → Note × Int × Option GoError)
    (r : Request) (userID noteID : Int)
    (hid : Atoi (URLParam r "id") = .ok userID)
    (hn : Atoi (URLParam r "note_id") = .ok noteID) :
    (NewGetNoteHandler noteGetter r).calls = [Call.getNote noteID userID] ∧
    ((NewGetNoteHandler noteGetter r).status, (NewGetNoteHandler noteGetter r).body) =
      (match (noteGetter noteID userID).2.2 with
       | none => (none, some (.getNote StatusOK (noteGetter noteID userID).1))
       | some e => classResponse "no notes with this id" (classify .ErrNoNotes e)) := by
  rcases NewGetNoteHandler_cases noteGetter r with ⟨hs, hc⟩ | ⟨u, n, hu, hn', hcs, hresp⟩
  · exfalso
    unfold NewGetNoteHandler at hc
    simp only [hid, hn] at hc
    revert hc
    repeat' split
    all_goals simp [writeErr]
  · rw [hid] at hu; rw [hn] at hn'
    cases hu; cases hn'
    exact ⟨hcs, hresp⟩

theorem NewGetNotesHandler_reached (lowerTable : Char → Char)
    (notesGetter : Int → Int → Int → String → List Note × List Int × Option GoError)
    (r : Request) (userID limit offset : Int) (sort : String)
    (hid : Atoi (URLParam r "id") = .ok userID)
    (hl : (if QueryGet r "limit" ≠ "" then Atoi (QueryGet r "limit") else .ok 10) = .ok limit)
    (ho : (if QueryGet r "offset" ≠ "" then Atoi (QueryGet r "offset") else .ok 0) = .ok offset)
    (hsw : (ToLower lowerTable (if QueryGet r "sort" ≠ "" then QueryGet r "sort" else "ASC")
              = "asc" ∧ sort = "ASC") ∨
           (ToLower lowerTable (if QueryGet r "sort" ≠ "" then QueryGet r "sort" else "ASC")
              = "desc" ∧ sort = "DESC")) :
    (NewGetNotesHandler lowerTable notesGetter r).calls =
      [Call.getNotes userID limit offset sort] ∧
    ((NewGetNotesHandler lowerTable notesGetter r).status,
      (NewGetNotesHandler lowerTable notesGetter r).body) =
      (match (notesGetter userID limit offset sort).2.2 with
       | none => (none, some (.getNotes StatusOK (notesGetter userID limit offset sort).1))
       | some e =>
         classResponse "user have no notes or offset is too big"
           (classify .ErrUserNoNotes e)) := by
  have hcalls : (NewGetNotesHandler lowerTable notesGetter r).calls =
      [Call.getNotes userID limit offset sort] := by
    unfold NewGetNotesHandler
    simp only [hid, hl, ho, sort_switch_of_cases _ _ hsw]
    repeat' split
    all_goals simp [writeErr]
  refine ⟨hcalls, ?_⟩
  exact (NewGetNotesHandler_response lowerTable notesGetter r userID limit offset sort
    (by rw [hcalls]; simp)).2

theorem NewUpdateNoteHandler_reached
    (noteUpdater : Int → Int → String → String → Int × Option GoError) (r : Request)
    (userID noteID : Int) (req : NoteRequest)
    (hid : Atoi (URLParam r "id") = .ok userID)
    (hn : Atoi (URLParam r "note_id") = .ok noteID)
    (hb : r.body = some req) (ht : req.Title ≠ "") :
    (NewUpdateNoteHandler noteUpdater r).calls =
      [Call.updateNote noteID userID req.Title req.Content] ∧
    ((NewUpdateNoteHandler noteUpdater r).status, (NewUpdateNoteHandler noteUpdater r).body) =
      (match (noteUpdater noteID userID req.Title req.Content).2 with
       | none => (some 201, some respOK)
       | some e => classResponse "no notes with this id" (classify .ErrNoNotes e)) := by
  rcases NewUpdateNoteHandler_cases noteUpdater r with
    ⟨hs, hc⟩ | ⟨u, n, req', hu, hn', hb', hcs, hresp⟩
  · exfalso
    unfold NewUpdateNoteHandler at hc
    simp only [hid, hn, hb, validateRequest, ht, if_false] at hc
    revert hc
    simp only [ne_eq, not_true_eq_false, if_false]
    repeat' split
    all_goals simp [writeErr]
  · rw [hid] at hu; rw [hn] at hn'; rw [hb] at hb'
    cases hu; cases hn'; cases hb'
    exact ⟨hcs, hresp⟩

theorem NewSaveNoteHandler_reached
    (noteSaver : Int → String → String → Int × Option GoError) (r : Request)
    (userID : Int) (req : NoteRequest)
    (hid : Atoi (URLParam r "id") = .ok userID)
    (hb : r.body = some req) (ht : req.Title ≠ "") :
    (NewSaveNoteHandler noteSaver r).calls = [Call.saveNote userID req.Title req.Content] := by
  unfold NewSaveNoteHandler
  simp only [hid, hb, validateRequest, ht, if_false, ne_eq, not_true_eq_false]
  repeat' split
  all_goals simp [writeErr]

/-- C9. For every request that the middleware admits, the owner id in every
call that a note handler makes to the store equals the identity that the
token parser returned for the credential of the request's Authorization
header, and the handlers do make
their store call with that identity as owner: `SaveNote`, `GetNotes`,
`GetNote` and `UpdateNote` are called with it whenever the rest of the request
passes the handler's validation. (Each handler reads the owner from the path
parameter `id`, which the middleware has compared with the identity.) -/
theorem handlers_owner_is_verified_identity (tokenParser : String → Int × Option GoError)
    (lowerTable : Char → Char)
    (noteSaver : Int → String → String → Int × Option GoError)
    (notesGetter : Int → Int → Int → String → List Note × List Int × Option GoError)
    (noteGetter : Int → Int → Note × Int × Option GoError)
    (noteUpdater : Int → Int → String → String → Int × Option GoError)
    (r : Request) (handler : Request → Outcome)
    (hhandler : handler ∈ [NewSaveNoteHandler noteSaver, NewGetNotesHandler lowerTable notesGetter,
      NewGetNoteHandler noteGetter, NewUpdateNoteHandler noteUpdater])
    (hserve : Call.serveNext ∈ (Authorize tokenParser handler r).calls) :
    ∃ tok, WellFormedBearer (HeaderGet r "Authorization") tok ∧
      Call.parseToken tok ∈ (Authorize tokenParser handler r).calls ∧
      (tokenParser tok).2 = none ∧
      Atoi (URLParam r "id") = .ok (tokenParser tok).1 ∧
      (∀ c ∈ (Authorize tokenParser handler r).calls, ∀ owner, c.owner = some owner →
        owner = (tokenParser tok).1) ∧
      (∀ req, r.body = some req → req.Title ≠ "" →
        (Authorize tokenParser (NewSaveNoteHandler noteSaver) r).calls =
          [Call.parseToken tok, Call.serveNext,
           Call.saveNote (tokenParser tok).1 req.Title req.Content]) ∧
      (∀ limit offset sort,
        (if QueryGet r "limit" ≠ "" then Atoi (QueryGet r "limit") else .ok 10) = .ok limit →
        (if QueryGet r "offset" ≠ "" then Atoi (QueryGet r "offset") else .ok 0) = .ok offset →
        ((ToLower lowerTable (if QueryGet r "sort" ≠ "" then QueryGet r "sort" else "ASC")
            = "asc" ∧ sort = "ASC") ∨
         (ToLower lowerTable (if QueryGet r "sort" ≠ "" then QueryGet r "sort" else "ASC")
            = "desc" ∧ sort = "DESC")) →
        (Authorize tokenParser (NewGetNotesHandler lowerTable notesGetter) r).calls =
          [Call.parseToken tok, Call.serveNext,
           Call.getNotes (tokenParser tok).1 limit offset sort]) ∧
      (∀ noteID, Atoi (URLParam r "note_id") = .ok noteID →
        (Authorize tokenParser (NewGetNoteHandler noteGetter) r).calls =
          [Call.parseToken tok, Call.serveNext, Call.getNote noteID (tokenParser tok).1]) ∧
      (∀ noteID req, Atoi (URLParam r "note_id") = .ok noteID → r.body = some req →
        req.Title ≠ "" →
        (Authorize tokenParser (NewUpdateNoteHandler noteUpdater) r).calls =
          [Call.parseToken tok, Call.serveNext,
           Call.updateNote noteID (tokenParser tok).1 req.Title req.Content]) := by
  obtain ⟨tok, hwf, herr, hid, hcalls⟩ := Authorize_admits tokenParser handler r hserve
  refine ⟨tok, hwf, by simp [hcalls], herr, hid, ?_, ?_, ?_, ?_, ?_⟩
  · intro c hc owner ho
    rw [hcalls] at hc
    simp only [List.mem_cons] at hc
    rcases hc with rfl | rfl | hc
    · simp [Call.owner] at ho
    · simp [Call.owner] at ho
    · simp only [List.mem_cons, List.mem_singleton, List.not_mem_nil, or_false] at hhandler
      rcases hhandler with rfl | rfl | rfl | rfl
      · rcases NewSaveNoteHandler_cases noteSaver r with h0 | ⟨u, req, hu, hcs⟩
        · rw [h0] at hc; simp at hc
        · rw [hcs] at hc
          simp only [List.mem_singleton] at hc
          subst hc
          simp only [Call.owner, Option.some.injEq] at ho
          rw [hid] at hu
          simp only [Except.ok.injEq] at hu
          omega
      · rcases NewGetNotesHandler_cases lowerTable notesGetter r with
          ⟨_, h0, _⟩ | ⟨u, l, o, s, hu, _, _, _, hcs⟩
        · rw [h0] at hc; simp at hc
        · rw [hcs] at hc
          simp only [List.mem_singleton] at hc
          subst hc
          simp only [Call.owner, Option.some.injEq] at ho
          rw [hid] at hu
          simp only [Except.ok.injEq] at hu
          omega
      · rcases NewGetNoteHandler_cases noteGetter r with ⟨_, h0⟩ | ⟨u, n, hu, _, hcs, _⟩
        · rw [h0] at hc; simp at hc
        · rw [hcs] at hc
          simp only [List.mem_singleton] at hc
          subst hc
          simp only [Call.owner, Option.some.injEq] at ho
          rw [hid] at hu
          simp only [Except.ok.injEq] at hu
          omega
      · rcases NewUpdateNoteHandler_cases noteUpdater r with
          ⟨_, h0⟩ | ⟨u, n, req, hu, _, _, hcs, _⟩
        · rw [h0] at hc; simp at hc
        · rw [hcs] at hc
          simp only [List.mem_singleton] at hc
          subst hc
          simp only [Call.owner, Option.some.injEq] at ho
          rw [hid] at hu
          simp only [Except.ok.injEq] at hu
          omega
  · intro req hb ht
    rw [Authorize_admitted_calls tokenParser _ r tok hwf herr hid,
      NewSaveNoteHandler_reached noteSaver r _ req hid hb ht]
  · intro limit offset sort hl ho hsw
    rw [Authorize_admitted_calls tokenParser _ r tok hwf herr hid,
      (NewGetNotesHandler_reached lowerTable notesGetter r _ limit offset sort hid hl ho hsw).1]
  · intro noteID hn
    rw [Authorize_admitted_calls tokenParser _ r tok hwf herr hid,
      (NewGetNoteHandler_reached noteGetter r _ noteID hid hn).1]
  · intro noteID req hn hb ht
    rw [Authorize_admitted_calls tokenParser _ r tok hwf herr hid,
      (NewUpdateNoteHandler_reached noteUpdater r _ noteID req hid hn hb ht).1]

theorem handlers_owner_is_verified_identity_witness :
    (Authorize parserTwo (NewSaveNoteHandler (fun _ _ _ => (0, none))) sampleRequest).calls =
      [Call.parseToken "abc", Call.serveNext, Call.saveNote 2 "shopping" "milk"] ∧
    (Authorize parserTwo (NewGetNotesHandler id (fun _ _ _ _ => ([], [], none)))
        sampleRequest).calls =
      [Call.parseToken "abc", Call.serveNext, Call.getNotes 2 10 0 "ASC"] ∧
    (Authorize parserTwo (NewGetNoteHandler (fun _ _ => (zeroNote, 0, none)))
        sampleRequest).calls =
      [Call.parseToken "abc", Call.serveNext, Call.getNote 5 2] ∧
    (Authorize parserTwo (NewUpdateNoteHandler (fun _ _ _ _ => (0, none)))
        sampleRequest).calls =
      [Call.parseToken "abc", Call.serveNext, Call.updateNote 5 2 "shopping" "milk"] := by
  obtain ⟨tok, _, hp, _, _, _, hsave, hlist, hget, hupd⟩ :=
    handlers_owner_is_verified_identity parserTwo id (fun _ _ _ => (0, none))
      (fun _ _ _ _ => ([], [], none)) (fun _ _ => (zeroNote, 0, none))
      (fun _ _ _ _ => (0, none))
      sampleRequest (NewGetNoteHandler (fun _ _ => (zeroNote, 0, none)))
      (by simp) (by decide)
  have htok : tok = "abc" := by
    have h0 : (Authorize parserTwo (NewGetNoteHandler (fun _ _ => (zeroNote, 0, none)))
        sampleRequest).calls = [Call.parseToken "abc", Call.serveNext, Call.getNote 5 2] := by
      decide
    rw [h0] at hp
    simpa using hp
  subst htok
  exact ⟨hsave { Title := "shopping", Content := "milk" } rfl (by decide),
    hlist 10 0 "ASC" (by decide) (by decide) (Or.inl ⟨by decide, rfl⟩),
    hget 5 (by decide),
    hupd 5 { Title := "shopping", Content := "milk" } (by decide) rfl (by decide)⟩

/-- C10. In the get, list and update handlers, for a request that passes the
handler's validation the store is called, and the status and body written for
a store error are determined by the class of the error: nothing is written
for an error that wraps `context.Canceled`; otherwise 504 for one that wraps
`context.DeadlineExceeded`; otherwise 404 for the handler's not-found error;
500 with the message `internal error` for every other error, so that two
unexpected faults are answered alike. -/
theorem handlers_classify_store_error :
    (∀ (noteGetter : Int → Int → Note × Int × Option GoError) (r : Request)
        (noteID userID : Int) (e : GoError),
      Atoi (URLParam r "id") = .ok userID →
      Atoi (URLParam r "note_id") = .ok noteID →
      (noteGetter noteID userID).2.2 = some e →
      (NewGetNoteHandler noteGetter r).calls = [Call.getNote noteID userID] ∧
      ((NewGetNoteHandler noteGetter r).status, (NewGetNoteHandler noteGetter r).body) =
        classResponse "no notes with this id" (classify .ErrNoNotes e)) ∧
    (∀ (lowerTable : Char → Char)
        (notesGetter : Int → Int → Int → String → List Note × List Int × Option GoError)
        (r : Request) (userID limit offset : Int) (sort : String) (e : GoError),
      Atoi (URLParam r "id") = .ok userID →
      (if QueryGet r "limit" ≠ "" then Atoi (QueryGet r "limit") else .ok 10) = .ok limit →
      (if QueryGet r "offset" ≠ "" then Atoi (QueryGet r "offset") else .ok 0) = .ok offset →
      ((ToLower lowerTable (if QueryGet r "sort" ≠ "" then QueryGet r "sort" else "ASC")
          = "asc" ∧ sort = "ASC") ∨
       (ToLower lowerTable (if QueryGet r "sort" ≠ "" then QueryGet r "sort" else "ASC")
          = "desc" ∧ sort = "DESC")) →
      (notesGetter userID limit offset sort).2.2 = some e →
      (NewGetNotesHandler lowerTable notesGetter r).calls =
        [Call.getNotes userID limit offset sort] ∧
      ((NewGetNotesHandler lowerTable notesGetter r).status,
        (NewGetNotesHandler lowerTable notesGetter r).body) =
        classResponse "user have no notes or offset is too big" (classify .ErrUserNoNotes e)) ∧
    (∀ (noteUpdater : Int → Int → String → String → Int × Option GoError) (r : Request)
        (noteID userID : Int) (req : NoteRequest) (e : GoError),
      Atoi (URLParam r "id") = .ok userID →
      Atoi (URLParam r "note_id") = .ok noteID →
      r.body = some req → req.Title ≠ "" →
      (noteUpdater noteID userID req.Title req.Content).2 = some e →
      (NewUpdateNoteHandler noteUpdater r).calls =
        [Call.updateNote noteID userID req.Title req.Content] ∧
      ((NewUpdateNoteHandler noteUpdater r).status, (NewUpdateNoteHandler noteUpdater r).body) =
        classResponse "no notes with this id" (classify .ErrNoNotes e)) ∧
    (∀ (msg : String),
      classResponse msg .canceled = (none, none) ∧
      classResponse msg .deadlineExceeded =
        (some 504, some (respErr "request took too long to process, try again later")) ∧
      classResponse msg .notFound = (some 404, some (respErr msg)) ∧
      classResponse msg .unexpected = (some 500, some (respErr "internal error"))) ∧
    (∀ (notFound : Sentinel) (e : GoError),
      (classify notFound e = .canceled ↔ .Canceled ∈ e.chain) ∧
      (classify notFound e = .deadlineExceeded ↔
        .Canceled ∉ e.chain ∧ .DeadlineExceeded ∈ e.chain) ∧
      (classify notFound e = .notFound ↔
        .Canceled ∉ e.chain ∧ .DeadlineExceeded ∉ e.chain ∧ notFound ∈ e.chain) ∧
      (classify notFound e = .unexpected ↔
        .Canceled ∉ e.chain ∧ .DeadlineExceeded ∉ e.chain ∧ notFound ∉ e.chain)) := by
  refine ⟨?_, ?_, ?_, ?_, ?_⟩
  · intro g r noteID userID e hid hn he
    obtain ⟨hc, hresp⟩ := NewGetNoteHandler_reached g r userID noteID hid hn
    exact ⟨hc, by rw [hresp, he]⟩
  · intro t g r u l o s e hid hl ho hsw he
    obtain ⟨hc, hresp⟩ := NewGetNotesHandler_reached t g r u l o s hid hl ho hsw
    exact ⟨hc, by rw [hresp, he]⟩
  · intro g r noteID userID req e hid hn hb ht he
    obtain ⟨hc, hresp⟩ := NewUpdateNoteHandler_reached g r userID noteID req hid hn hb ht
    exact ⟨hc, by rw [hresp, he]⟩
  · intro msg
    exact ⟨rfl, rfl, rfl, rfl⟩
  · intro nf e
    unfold classify
    by_cases h1 : Sentinel.Canceled ∈ e.chain
    · simp [h1]
    · by_cases h2 : Sentinel.DeadlineExceeded ∈ e.chain
      · simp [h1, h2]
      · by_cases h3 : nf ∈ e.chain
        · simp [h1, h2, h3]
        · simp [h1, h2, h3]

theorem handlers_classify_store_error_witness :
    ((NewGetNoteHandler (fun _ _ => (zeroNote, 0,
          some { msg := "connection refused", chain := [], pgCode := none })) sampleRequest).calls
        = [Call.getNote 5 2] ∧
      ((NewGetNoteHandler (fun _ _ => (zeroNote, 0,
          some { msg := "connection refused", chain := [], pgCode := none })) sampleRequest).status,
        (NewGetNoteHandler (fun _ _ => (zeroNote, 0,
          some { msg := "connection refused", chain := [], pgCode := none })) sampleRequest).body)
        = (some 500, some (respErr "internal error"))) ∧
    ((NewGetNotesHandler id (fun _ _ _ _ => ([], [],
          some (wrapOp "storage.postgres.GetNotes" storage_ErrUserNoNotes))) sampleRequest).calls
        = [Call.getNotes 2 10 0 "ASC"] ∧
      ((NewGetNotesHandler id (fun _ _ _ _ => ([], [],
          some (wrapOp "storage.postgres.GetNotes" storage_ErrUserNoNotes))) sampleRequest).status,
        (NewGetNotesHandler id (fun _ _ _ _ => ([], [],
          some (wrapOp "storage.postgres.GetNotes" storage_ErrUserNoNotes))) sampleRequest).body)
        = (some 404, some (respErr "user have no notes or offset is too big"))) ∧
    ((NewUpdateNoteHandler (fun _ _ _ _ => (0, some context_DeadlineExceeded))
          sampleRequest).calls
        = [Call.updateNote 5 2 "shopping" "milk"] ∧
      ((NewUpdateNoteHandler (fun _ _ _ _ => (0, some context_DeadlineExceeded))
          sampleRequest).status,
        (NewUpdateNoteHandler (fun _ _ _ _ => (0, some context_DeadlineExceeded))
          sampleRequest).body)
        = (some 504, some (respErr "request took too long to process, try again later"))) :=
  ⟨handlers_classify_store_error.1
      (fun _ _ => (zeroNote, 0, some { msg := "connection refused", chain := [], pgCode := none }))
      sampleRequest 5 2 { msg := "connection refused", chain := [], pgCode := none }
      (by decide) (by decide) rfl,
   handlers_classify_store_error.2.1 id
      (fun _ _ _ _ => ([], [], some (wrapOp "storage.postgres.GetNotes" storage_ErrUserNoNotes)))
      sampleRequest 2 10 0 "ASC" (wrapOp "storage.postgres.GetNotes" storage_ErrUserNoNotes)
      (by decide) (by decide) (by decide) (Or.inl ⟨by decide, rfl⟩) rfl,
   handlers_classify_store_error.2.2.1
      (fun _ _ _ _ => (0, some context_DeadlineExceeded))
      sampleRequest 5 2 { Title := "shopping", Content := "milk" } context_DeadlineExceeded
      (by decide) (by decide) rfl (by decide) rfl⟩

/-! ## Storage faults while listing (C11, C12) -/

theorem GetNotes_ignores_rows_err (memory : Int) (pool : Pool) (userID limit offset : Int)
    (sort : String) :
    GetNotes memory pool userID limit offset sort =
      GetNotes memory (fun q args => (pool q args).map (fun rows => { rows with err := none }))
        userID limit offset sort := by
  unfold GetNotes
  cases h : pool (safeQuery sort) [userID, limit, offset] <;> simp [Except.map, h]

/-- C11, the code at the failing inputs. A query that delivers note 7 and is
then ended by the deadline makes `GetNotes` return the one note with a nil
error; a query ended by the deadline before any row makes it return
`ErrUserNoNotes`. In both cases the terminal error is lost. -/
theorem GetNotes_swallows_terminal_error :
    GetNotes sampleMemory interruptedPool 1 10 0 "ASC" =
      .returned { notes := [sampleNote], ids := [7], err := none,
                  executed := [(safeQuery "ASC", [1, 10, 0])] } ∧
    GetNotes sampleMemory timedOutPool 1 10 0 "ASC" =
      .returned { notes := [], ids := [],
                  err := some (wrapOp "storage.postgres.GetNotes" storage_ErrUserNoNotes),
                  executed := [(safeQuery "ASC", [1, 10, 0])] } ∧
    errorsIs (some (wrapOp "storage.postgres.GetNotes" storage_ErrUserNoNotes))
      .DeadlineExceeded = false :=
  ⟨rfl, rfl, rfl⟩

/-- C12, the code at the failing inputs. For the query `limit=-1` the list
handler calls `GetNotes` with the limit -1, and `GetNotes` with that limit
panics in `make`; for the query `offset=-1` it calls `GetNotes` with the
offset -1. -/
theorem NewGetNotesHandler_passes_negative_limit :
    (NewGetNotesHandler id (fun _ _ _ _ => ([], [], none))
        { sampleRequest with query := [("limit", "-1")] }).calls =
      [Call.getNotes 2 (-1) 0 "ASC"] ∧
    GetNotes sampleMemory emptyPool 2 (-1) 0 "ASC" =
      .panicked "runtime error: makeslice: cap out of range" ∧
    (NewGetNotesHandler id (fun _ _ _ _ => ([], [], none))
        { sampleRequest with query := [("offset", "-1")] }).calls =
      [Call.getNotes 2 10 (-1) "ASC"] := by
  decide

/-! ## The update timestamp (C13) -/

/-- C13, counterexample. `UpdateNote` of note 7 by its owner succeeds and stores
the new title and content, and the statement it issues, which names only
`title` and `content`, leaves the update timestamp at 100, the creation
timestamp: the update timestamp is not later than the creation timestamp. -/
theorem UpdateNote_timestamp_counterexample :
    UpdateNoteOn none sampleTable 7 1 "errands" "bread" =
      ((7, none),
       [{ id := 7, userID := 1, title := "errands", content := "bread",
          createdAt := 100, updatedAt := 100 }]) ∧
    ¬ (∀ row ∈ (UpdateNoteOn none sampleTable 7 1 "errands" "bread").2,
        row.id = 7 → row.createdAt < row.updatedAt) := by
  decide

/-- C13 (as the code has it). With the notes table keyed by note id, for every
successful `UpdateNote` the note's id is returned and the table afterwards
holds the note with the new title and content and with the owner, the
creation timestamp and the update timestamp it had before; the other rows
are as before. The statement assigns no timestamp. -/
theorem UpdateNoteOn_sets_title_and_content (fault : Option GoError)
    (table : List NoteRow) (noteID userID : Int) (title content : String)
    (hkey : Keyed table)
    (hok : (UpdateNoteOn fault table noteID userID title content).1.2 = none) :
    ∃ row ∈ table, row.id = noteID ∧ row.userID = userID ∧
      (UpdateNoteOn fault table noteID userID title content).1.1 = noteID ∧
      (UpdateNoteOn fault table noteID userID title content).2 =
        table.map (fun r =>
          if r.id = noteID then
            { id := noteID, userID := userID, title := title, content := content,
              createdAt := row.createdAt, updatedAt := row.updatedAt }
          else r) := by
  cases fault with
  | some err =>
    exfalso
    simp only [UpdateNoteOn, UpdateNote] at hok
    split at hok <;> simp at hok
  | none =>
    simp only [UpdateNoteOn, updateNote] at hok ⊢
    cases hf : table.find? (rowMatches noteID userID) with
    | none =>
      exfalso
      rw [hf] at hok
      simp only [UpdateNote] at hok
      split at hok <;> simp at hok
    | some row =>
      have hmatch : rowMatches noteID userID row = true := List.find?_some hf
      have hmem : row ∈ table := List.mem_of_find?_eq_some hf
      simp only [rowMatches, Bool.and_eq_true, decide_eq_true_eq] at hmatch
      obtain ⟨hid, hown⟩ := hmatch
      refine ⟨row, hmem, hid, hown, ?_, ?_⟩
      · simp [UpdateNote, hid]
      · apply List.map_congr_left
        intro r hr
        by_cases hr' : r.id = noteID
        · have hrr : r = row := List.inj_on_of_nodup_map hkey hr hmem (hr'.trans hid.symm)
          subst hrr
          simp [rowMatches, hid, hown]
        · simp [rowMatches, hr']

theorem UpdateNoteOn_sets_title_and_content_witness :
    ∃ row ∈ sampleTable, row.id = 7 ∧ row.userID = 1 ∧
      (UpdateNoteOn none sampleTable 7 1 "errands" "bread").1.1 = 7 ∧
      (UpdateNoteOn none sampleTable 7 1 "errands" "bread").2 =
        sampleTable.map (fun r =>
          if r.id = 7 then
            { id := 7, userID := 1, title := "errands", content := "bread",
              createdAt := row.createdAt, updatedAt := row.updatedAt }
          else r) :=
  UpdateNoteOn_sets_title_and_content none sampleTable 7 1 "errands" "bread"
    (by unfold Keyed; decide) (by decide)

/-! ## Registration (C14) -/

/-- C14. For a database error (one that wraps none of the repository's own
sentinels) `SaveUser` returns the identity 0 and an error, which wraps
`ErrUserExist` exactly when the database reported a unique violation and is
the wrapped database error otherwise; on success it returns the id that the
insert produced. The registration handler wired to `SaveUser` answers a
unique violation with 409 and does not call the token generator. -/
theorem SaveUser_classifies_insert_error :
    (∀ err : GoError, DriverError err →
      (SaveUser (.error err)).1 = 0 ∧
      (∃ e, (SaveUser (.error err)).2 = some e) ∧
      (errorsIs (SaveUser (.error err)).2 .ErrUserExist = true ↔
        err.pgCode = some UniqueViolation) ∧
      (err.pgCode ≠ some UniqueViolation →
        (SaveUser (.error err)).2 = some (wrapOp "storage.postgres.SaveUser" err))) ∧
    (∀ id : Int, SaveUser (.ok id) = (id, none)) ∧
    (∀ (insert : String → Except GoError Int)
        (accessTokenGenerator : Int → Int → String × Option GoError) (jwtTTL : Int)
        (r : Request) (req : SaveUserRequest) (err : GoError),
      r.userBody = some req → req.Username ≠ "" →
      insert req.Username = .error err → err.pgCode = some UniqueViolation →
      (NewSaveUserHandler (fun u => SaveUser (insert u)) accessTokenGenerator jwtTTL r).status
        = some 409 ∧
      (NewSaveUserHandler (fun u => SaveUser (insert u)) accessTokenGenerator jwtTTL r).body
        = some (respErr "user with this username already exists") ∧
      (NewSaveUserHandler (fun u => SaveUser (insert u)) accessTokenGenerator jwtTTL r).calls
        = [Call.saveUser req.Username]) := by
  refine ⟨?_, ?_, ?_⟩
  · intro err hd
    obtain ⟨_, _, hue, _, _⟩ := hd
    by_cases hc : err.pgCode = some UniqueViolation
    · simp [SaveUser, hc, errorsIs, wrapOp, storage_ErrUserExist, errorsNew]
    · simp [SaveUser, hc, errorsIs, wrapOp, hue]
  · intro id
    rfl
  · intro insert gen ttl r req err hb hu hi hc
    unfold NewSaveUserHandler
    simp only [hb, validateSaveUserRequest, hu, if_false, hi, SaveUser, hc, if_true]
    simp [errorsIs, wrapOp, storage_ErrUserExist, errorsNew, writeErr]

theorem SaveUser_classifies_insert_error_witness :
    (NewSaveUserHandler (fun u => SaveUser (if u = "alice" then .error uniqueViolationError
        else .ok 1)) sampleGenerator 3600 registerRequest).status = some 409 ∧
    (NewSaveUserHandler (fun u => SaveUser (if u = "alice" then .error uniqueViolationError
        else .ok 1)) sampleGenerator 3600 registerRequest).calls = [Call.saveUser "alice"] := by
  have h := SaveUser_classifies_insert_error.2.2
    (fun u => if u = "alice" then .error uniqueViolationError else .ok 1)
    sampleGenerator 3600 registerRequest { Username := "alice" } uniqueViolationError
    rfl (by decide) (by decide) (by decide)
  exact ⟨h.1, h.2.2⟩

/-! ## The routing table (C15) -/

/-- C15. In the routing table that `main` builds, the routes of the note
handlers are POST and GET on `/users/{id}/notes` and GET, PUT and DELETE on
`/users/{id}/notes/{note_id}`, each with the Authorize middleware in front of
its handler; the registration route POST `/users` is the only other route and
Authorize is not in front of it. -/
theorem router_guards_note_routes :
    (∀ e ∈ router.table, e.endpoint.isNoteHandler = true → Middleware.Authorize ∈ e.stack) ∧
    (∀ e ∈ router.table, e.endpoint.isNoteHandler = false → Middleware.Authorize ∉ e.stack) ∧
    router.table.map (fun e => (e.method, e.patterns, e.endpoint)) =
      [("POST", ["/users"], .NewSaveUserHandler),
       ("POST", ["/users/{id}/notes", "/"], .NewSaveNoteHandler),
       ("GET", ["/users/{id}/notes", "/"], .NewGetNotesHandler),
       ("GET", ["/users/{id}/notes/{note_id}", "/"], .NewGetNoteHandler),
       ("PUT", ["/users/{id}/notes/{note_id}", "/"], .NewUpdateNoteHandler),
       ("DELETE", ["/users/{id}/notes/{note_id}", "/"], .NewDeleteNoteHandler)] := by
  decide

end Todo
